import Mathlib

/-!
Verification of the Gateway context/retrieval pipeline.

This file gives a shallow embedding, in Lean 4, of the parts of the
repository relevant to the checked claims:

* `app/api/v1/routes_gateway_ctx.py` — keyword garble detection and
  normalization, evidence scoring and two-stage deduplication, the
  in-memory cache, the `tools/call gateway_ctx` handler, and the
  JSON-RPC dispatch (single messages, batches, notifications);
* `app/services/summarizer.py` — the summary sanitization pass and the
  mojibake repair routine;
* `app/api/v1/routes_openai_proxy.py` — the tool-thread message
  sanitizer.

Python floats are embedded as exact rationals (`ℚ`), Unix timestamps as
`ℕ`/`ℚ`, strings as Lean `String`/`List Char`, JSON dicts as typed
structures, and network / exception effects as explicit parameters
(`Except` values and oracles).  Definitions are translated from the
Python source; a few `spec…` definitions follow the wording of the
specification instead and are named accordingly.
-/

set_option maxRecDepth 4000

attribute [local semireducible] Rat.add Rat.sub Rat.mul Rat.inv

/-! ## Python string primitives -/

/-- The characters Python's `str.strip()` removes: exactly those `c` with
`c.isspace()` true (ASCII whitespace, C0 separators, NEL, NBSP and the
Unicode space separators). -/
def pySpaceChars : List Char :=
  ['\t', '\n', '\x0b', '\x0c', '\r', '\x1c', '\x1d', '\x1e', '\x1f', ' ',
   '\u0085', '\u00a0', '\u1680', '\u2000', '\u2001', '\u2002', '\u2003', '\u2004',
   '\u2005', '\u2006', '\u2007', '\u2008', '\u2009', '\u200a', '\u2028', '\u2029',
   '\u202f', '\u205f', '\u3000']

def isPySpace (c : Char) : Bool := pySpaceChars.contains c

def pyStripList (l : List Char) : List Char :=
  ((l.dropWhile isPySpace).reverse.dropWhile isPySpace).reverse

/-- Python `str.strip()` (no argument): drop leading and trailing whitespace. -/
def pyStrip (s : String) : String := String.mk (pyStripList s.data)

/-- Python `str.lower()`, restricted to the ASCII range (the texts the
pipeline lowercases are ASCII/CJK, on which this agrees with Python). -/
def pyLowerChar (c : Char) : Char := c.toLower

/-! ## Garbled-keyword detection (`_looks_garbled_keyword`) -/

/-- The separator characters ignored when counting keyword length:
`" ,，;；|/\t\r\n"` in the source. -/
def sepChars : List Char := [' ', ',', '，', ';', '；', '|', '/', '\t', '\r', '\n']

/-- Number of `'?'` characters in a string (`kw.count("?")`). -/
def qmarkCount (s : String) : ℕ := s.data.count '?'

/-- Number of non-separator characters
(`sum(1 for ch in kw if ch not in " ,，;；|/\t\r\n")`). -/
def nonSepCount (s : String) : ℕ :=
  (s.data.filter (fun c => !sepChars.contains c)).length

/-- Source translation of `_looks_garbled_keyword` in
`routes_gateway_ctx.py`: strip the keyword; empty → `false`; no `'?'` →
`false`; all characters separators → `true`; otherwise compare the ratio
of `'?'` to non-separator characters against `0.4`. -/
def looksGarbledKeyword (keyword : String) : Bool :=
  let kw := pyStrip keyword
  if kw = "" then false
  else
    let q := qmarkCount kw
    if q = 0 then false
    else
      let total := nonSepCount kw
      if total = 0 then true
      else decide ((2 : ℚ)/5 ≤ (q : ℚ) / (total : ℚ))

/-- Claim-side predicate for C7, following the claim's words literally on
the raw string: "the string is non-empty and the ratio of `'?'`
characters to non-separator characters is at least 0.4". -/
def specGarbledRaw (s : String) : Prop :=
  s ≠ "" ∧ (2 : ℚ)/5 ≤ (qmarkCount s : ℚ) / (nonSepCount s : ℚ)

/-- Amended claim-side predicate: the same ratio test, but computed on the
whitespace-stripped string (which is what the code does). -/
def specGarbledStripped (s : String) : Prop :=
  pyStrip s ≠ "" ∧
    (2 : ℚ)/5 ≤ (qmarkCount (pyStrip s) : ℚ) / (nonSepCount (pyStrip s) : ℚ)

/-! ## Text normalization, tokenization and Jaccard similarity
(`_normalize_text_for_dedupe`, `_tokenize_for_jaccard`, `_jaccard_similarity`) -/

/-- CJK unified ideographs `U+4E00 .. U+9FFF` (the class `[一-鿿]`). -/
def isCJK (c : Char) : Bool := 0x4e00 ≤ c.toNat && c.toNat ≤ 0x9fff

/-- Model of Python's word characters `\w` (minus `_`, which the source
folds into the separator class):  ASCII alphanumerics and CJK ideographs.
Other Unicode letter categories do not occur in the pipeline's data. -/
def isWordChar (c : Char) : Bool := c.isAlphanum || isCJK c

/-- Collapse runs of spaces into a single space (`re.sub(r"\s+", " ", t)`;
after the `[\W_]+` pass the only whitespace left is `' '`). -/
def collapseSpaces : List Char → List Char
  | [] => []
  | c :: rest =>
    if c = ' ' then ' ' :: collapseSpaces (rest.dropWhile (fun d => d = ' '))
    else c :: collapseSpaces rest
termination_by l => l.length
decreasing_by
  · simpa using Nat.lt_succ_of_le (List.dropWhile_sublist _).length_le
  · simp

/-- Source translation of `_normalize_text_for_dedupe`: strip+lowercase;
replace non-word characters by spaces, collapse whitespace, strip again. -/
def normalizeTextForDedupe (s : String) : List Char :=
  let t := (pyStripList s.data).map pyLowerChar
  if t = [] then []
  else
    let u := t.map (fun c => if isWordChar c then c else ' ')
    pyStripList (collapseSpaces u)

def isLowerDigit (c : Char) : Bool :=
  ('a' ≤ c && c ≤ 'z') || ('0' ≤ c && c ≤ '9')

/-- `re.findall(r"[a-z0-9]+|[一-鿿]", nt)`: maximal runs of
`[a-z0-9]` and single CJK codepoints, in order. -/
def findTokens : List Char → List (List Char)
  | [] => []
  | c :: rest =>
    if isLowerDigit c then
      (c :: rest.takeWhile isLowerDigit) :: findTokens (rest.dropWhile isLowerDigit)
    else if isCJK c then
      [c] :: findTokens rest
    else
      findTokens rest
termination_by l => l.length
decreasing_by
  · simpa using Nat.lt_succ_of_le (List.dropWhile_sublist _).length_le
  · simp
  · simp

/-- `nt.split()` on the normalized text (whose only whitespace is `' '`). -/
def splitWords : List Char → List (List Char)
  | [] => []
  | c :: rest =>
    if c = ' ' then splitWords rest
    else (c :: rest.takeWhile (fun d => !(d = ' '))) ::
      splitWords (rest.dropWhile (fun d => !(d = ' ')))
termination_by l => l.length
decreasing_by
  · simp
  · simpa using Nat.lt_succ_of_le (List.dropWhile_sublist _).length_le

/-- Source translation of `_tokenize_for_jaccard`: normalize, tokenize by
the regex, and fall back to whitespace splitting when the regex finds no
token in a non-empty normalized text. -/
def tokenizeForJaccard (s : String) : Finset String :=
  let nt := normalizeTextForDedupe s
  if nt = [] then ∅
  else
    let tokens := findTokens nt
    if tokens = [] then ((splitWords nt).map String.mk).toFinset
    else (tokens.map String.mk).toFinset

/-- Source translation of `_jaccard_similarity`: both sets empty → 1.0;
one empty → 0.0; otherwise `|a ∩ b| / |a ∪ b|` (with the source's
defensive `union <= 0` branch). -/
def jaccardSimilarity (a b : Finset String) : ℚ :=
  if a = ∅ ∧ b = ∅ then 1
  else if a = ∅ ∨ b = ∅ then 0
  else
    let inter := (a ∩ b).card
    let union := (a ∪ b).card
    if union = 0 then 0 else (inter : ℚ) / (union : ℚ)

/-! ## Evidence scoring (`_type_boost`, `_source_priority`,
`_recency_score`, `_score_and_rank_candidates`) -/

def W_KEYWORD : ℚ := 2/5
def W_VECTOR : ℚ := 2/5
def W_RECENCY : ℚ := 1/10
def W_TYPE : ℚ := 1/10

/-- Source translation of `_type_boost`. -/
def typeBoost (source_type : String) : ℚ :=
  if source_type = "current_input" then 13/10
  else if source_type = "s4" then 6/5
  else if source_type = "s60" then 11/10
  else if source_type = "keyword" ∨ source_type = "vector" then 1
  else 3/5

/-- Source translation of `_source_priority`. -/
def sourcePriority (source_type : String) : ℕ :=
  if source_type = "current_input" then 4
  else if source_type = "s4" then 3
  else if source_type = "s60" then 2
  else 1

/-- Source translation of `_recency_score`; `now` models `time.time()`. -/
def recencyScore (now ts : ℕ) : ℚ :=
  if ts = 0 then 0
  else
    let age : ℤ := max 0 ((now : ℤ) - (ts : ℤ))
    let day : ℤ := 86400
    if age ≤ day then 1
    else if age ≤ 7 * day then 4/5
    else if age ≤ 30 * day then 3/5
    else 3/10

/-- Python `round(x, 6)`: scale by `10^6` and round half to even. -/
def roundHalfEven (q : ℚ) : ℤ :=
  let fl := q.floor
  let frac := q - (fl : ℚ)
  if frac < 1/2 then fl
  else if 1/2 < frac then fl + 1
  else if fl % 2 = 0 then fl else fl + 1

def round6 (q : ℚ) : ℚ := ((roundHalfEven (q * 1000000) : ℚ)) / 1000000

/-- A unified raw candidate, as assembled by `_adapt_keyword_candidates`,
`_adapt_vector_candidates` and `_build_summary_candidates`:  `score_raw`
is the pair (keyword, vector); `ts = 0` plays the role of a missing or
falsy timestamp. -/
structure Candidate where
  id : String
  source_type : String
  source_id : String
  text : String
  chunk_id : String
  reason : String
  ts : ℕ
  keywordRaw : ℚ
  vectorRaw : ℚ
deriving DecidableEq

/-- Compressed payload of a merged duplicate (`_dup_payload`). -/
structure DupPayload where
  id : String
  source_type : String
  source_id : String
  chunk_id : String
  score_final : ℚ
  reason : String
deriving DecidableEq

/-- A scored evidence record, as built in the loop of
`_score_and_rank_candidates`.  The `meta` dict is flattened into the
fields `chunk_id`, `source_priority` and `duplicates` (`source_name` is
the constant `"anchor_rag"`; free-form upstream `metadata` keys are not
modelled and are assumed not to collide with the reserved ones). -/
structure EvidenceRec where
  id : String
  source_type : String
  source_id : String
  text : String
  rawKeyword : ℚ
  rawVector : ℚ
  rawRecency : ℚ
  rawTypeBoost : ℚ
  score_final : ℚ
  reason : String
  ts : ℕ
  chunk_id : String
  source_priority : ℕ
  duplicates : List DupPayload
deriving DecidableEq

/-- The body of the scoring loop in `_score_and_rank_candidates` for the
candidate at position `idx`.  `duplicates` starts empty (the
`setdefault("duplicates", [])` of `_postprocess_candidates` is the
identity on it). -/
def scoreOne (now : ℕ) (idx : ℕ) (item : Candidate) : EvidenceRec :=
  let kw := item.keywordRaw
  let vec := item.vectorRaw
  let rcy := recencyScore now item.ts
  let tb := typeBoost item.source_type
  let scoreFinal := W_KEYWORD * kw + W_VECTOR * vec + W_RECENCY * rcy + W_TYPE * tb
  { id := if item.id = "" then "ev_" ++ toString idx else item.id
    source_type := if item.source_type = "" then "unknown" else item.source_type
    source_id := item.source_id
    text := item.text
    rawKeyword := kw
    rawVector := vec
    rawRecency := rcy
    rawTypeBoost := tb
    score_final := round6 scoreFinal
    reason := item.reason
    ts := item.ts
    chunk_id := item.chunk_id
    source_priority := sourcePriority item.source_type
    duplicates := [] }

def scoredList (now : ℕ) (candidates : List Candidate) : List EvidenceRec :=
  candidates.enum.map (fun p => scoreOne now p.1 p.2)

/-- The sort key of `_score_and_rank_candidates`:
`(score_final, source_priority, recency)` descending, as a `≥` relation
for a stable merge sort. -/
def rankKeyGE (a b : EvidenceRec) : Bool :=
  decide (b.score_final < a.score_final ∨
    (a.score_final = b.score_final ∧
      (b.source_priority < a.source_priority ∨
        (a.source_priority = b.source_priority ∧ b.rawRecency ≤ a.rawRecency))))

/-- The final sort key of `_postprocess_candidates`: `score_final`
descending. -/
def scoreGE (a b : EvidenceRec) : Bool := decide (b.score_final ≤ a.score_final)

/-! ## Two-stage deduplication (`_dup_payload`, `_merge_duplicate`,
`_postprocess_candidates`) -/

/-- Source translation of `_dup_payload`. -/
def dupPayload (ev : EvidenceRec) : DupPayload :=
  { id := ev.id
    source_type := ev.source_type
    source_id := ev.source_id
    chunk_id := ev.chunk_id
    score_final := ev.score_final
    reason := ev.reason }

/-- Source translation of `_merge_duplicate`: the record with the higher
`score_final` is the keeper (ties keep the already-kept one); the loser's
compressed payload is appended to the keeper's `duplicates`. -/
def mergeDuplicate (kept incoming : EvidenceRec) : EvidenceRec :=
  if kept.score_final < incoming.score_final then
    { incoming with duplicates := incoming.duplicates ++ [dupPayload kept] }
  else
    { kept with duplicates := kept.duplicates ++ [dupPayload incoming] }

/-- Same `(source_id, chunk_id)` key (stage-1 deduplication key). -/
def sameKey (a b : EvidenceRec) : Prop :=
  a.source_id = b.source_id ∧ a.chunk_id = b.chunk_id

instance : DecidablePred fun p : EvidenceRec × EvidenceRec => sameKey p.1 p.2 :=
  fun _ => by unfold sameKey; infer_instance

/-- One step of stage 1: merge `ev` into the first element of `acc`
sharing its `(source_id, chunk_id)` key, or append it.  This models the
source's `key_index` dict (which maps each key to the unique index of its
first occurrence). -/
def dedupeKeyInsert (ev : EvidenceRec) : List EvidenceRec → List EvidenceRec
  | [] => [ev]
  | e :: rest =>
    if e.source_id = ev.source_id ∧ e.chunk_id = ev.chunk_id then
      mergeDuplicate e ev :: rest
    else
      e :: dedupeKeyInsert ev rest

/-- Stage 1 of `_postprocess_candidates`: key-based deduplication. -/
def dedupeByKey (scored : List EvidenceRec) : List EvidenceRec :=
  scored.foldl (fun acc ev => dedupeKeyInsert ev acc) []

/-- One step of stage 2: merge `ev` (token set `cur`) into the first kept
record whose token set has Jaccard similarity `> 0.9` with `cur`,
re-tokenizing the merged keeper, or append `(ev, cur)`. -/
def dedupeTextInsert (ev : EvidenceRec) (cur : Finset String) :
    List (EvidenceRec × Finset String) → List (EvidenceRec × Finset String)
  | [] => [(ev, cur)]
  | (e, ts) :: rest =>
    if (9 : ℚ)/10 < jaccardSimilarity cur ts then
      (mergeDuplicate e ev, tokenizeForJaccard (mergeDuplicate e ev).text) :: rest
    else
      (e, ts) :: dedupeTextInsert ev cur rest

/-- Stage 2 of `_postprocess_candidates`: text near-duplicate
deduplication, carrying the `token_sets` list alongside `deduped`. -/
def dedupeByText (items : List EvidenceRec) : List (EvidenceRec × Finset String) :=
  items.foldl (fun acc ev => dedupeTextInsert ev (tokenizeForJaccard ev.text) acc) []

/-- Source translation of `_postprocess_candidates`: stage 1, stage 2,
sort by `score_final` descending (stable), truncate to `top_n`. -/
def postprocessCandidates (scored : List EvidenceRec) (top_n : ℕ) : List EvidenceRec :=
  let deduped := ((dedupeByText (dedupeByKey scored)).map Prod.fst).mergeSort scoreGE
  deduped.take top_n

/-- Source translation of `_score_and_rank_candidates` (`RETRIEVAL_TOP_N`
defaults to 3; `top_n = 0` models a falsy `top_n`). -/
def scoreAndRankCandidates (now : ℕ) (candidates : List Candidate) (top_n : ℕ) :
    List EvidenceRec :=
  let scored := (scoredList now candidates).mergeSort rankKeyGE
  let n := max 1 (if top_n = 0 then 3 else top_n)
  postprocessCandidates scored n

/-- Non-increasing `score_final` (the order postprocessing receives). -/
def sGe (a b : EvidenceRec) : Prop := b.score_final ≤ a.score_final

/-- Distinct `(source_id, chunk_id)` keys. -/
def keyNe (a b : EvidenceRec) : Prop := ¬ sameKey a b

/-- The fields of a record that deduplication reads (everything except
`duplicates`-bookkeeping metadata). -/
def evCore (e : EvidenceRec) : String × String × String × ℚ :=
  (e.source_id, e.chunk_id, e.text, e.score_final)

/-- The C2 claim's pairwise property: distinct keys and token-set Jaccard
similarity at most 0.9. -/
def dedupOk (a b : EvidenceRec) : Prop :=
  ¬ sameKey a b ∧
    jaccardSimilarity (tokenizeForJaccard a.text) (tokenizeForJaccard b.text) ≤ 9/10

/-! ## Spec-side tables for claim C1 -/

/-- Claim C1's type-boost table, written from the claim's words. -/
def specTypeBoost (source_type : String) : ℚ :=
  if source_type = "current_input" then 13/10
  else if source_type = "s4" then 6/5
  else if source_type = "s60" then 11/10
  else if source_type = "keyword" then 1
  else if source_type = "vector" then 1
  else 3/5

/-- Claim C1's recency table, written from the claim's words: age at most
one day → 1.0, at most 7 days → 0.8, at most 30 days → 0.6, otherwise
0.3, and 0.0 for a missing (zero) timestamp. -/
def specRecency (now ts : ℕ) : ℚ :=
  if ts = 0 then 0
  else if max 0 ((now : ℤ) - (ts : ℤ)) ≤ 86400 then 1
  else if max 0 ((now : ℤ) - (ts : ℤ)) ≤ 7 * 86400 then 4/5
  else if max 0 ((now : ℤ) - (ts : ℤ)) ≤ 30 * 86400 then 3/5
  else 3/10

/-- Concrete candidate used by witness theorems. -/
def candW : Candidate :=
  { id := ""
    source_type := "s4"
    source_id := "sid"
    text := "snippet text"
    chunk_id := "ck"
    reason := "r"
    ts := 1000
    keywordRaw := 1/2
    vectorRaw := 1/4 }
/-! ## Substring search and Python `str.replace` -/

/-- `needle in hay` (Python substring containment). -/
def listContainsSub [DecidableEq α] : List α → List α → Bool
  | hay, needle =>
    match hay with
    | [] => decide (needle = [])
    | _ :: rest => needle.isPrefixOf hay || listContainsSub rest needle

def containsSub (hay needle : String) : Bool := listContainsSub hay.data needle.data

/-- Python `s.replace(pat, rep)` for a non-empty `pat`: leftmost,
non-overlapping.  The fuel argument (initialized to the subject's length)
only serves termination and never runs out, because every step consumes
at least one element. -/
def replaceListAux [DecidableEq α] (pat rep : List α) : ℕ → List α → List α
  | 0, _ => []
  | _ + 1, [] => []
  | fuel + 1, c :: rest =>
    if pat ≠ [] ∧ pat.isPrefixOf (c :: rest) then
      rep ++ replaceListAux pat rep fuel ((c :: rest).drop pat.length)
    else c :: replaceListAux pat rep fuel rest

def replaceList [DecidableEq α] (pat rep s : List α) : List α :=
  replaceListAux pat rep s.length s

def pyReplace (s pat rep : String) : String :=
  String.mk (replaceList pat.data rep.data s.data)

/-! ## Mojibake scoring and repair (`summarizer.py`) -/

/-- The marker characters of `_mojibake_score` (each is one character). -/
def mojibakeMarkers : List Char :=
  ['Ã', 'Â', 'æ', 'ä', 'å', 'ç', 'ð', '\u0085', '\u009d', '\u009f']

def charMojibakeScore (l : List Char) : ℕ :=
  mojibakeMarkers.foldl (fun acc m => acc + l.count m) 0

/-- `_mojibake_score`: `sum(text.count(m) for m in markers)`. -/
def mojibakeScore (s : String) : ℕ := charMojibakeScore s.data

def isC1Ctrl (c : Char) : Bool := 0x80 ≤ c.toNat && c.toNat ≤ 0x9f

/-- `_strip_ctrl`: remove U+0080..U+009F. -/
def stripCtrl (l : List Char) : List Char := l.filter (fun c => !isC1Ctrl c)

/-- `_ctrl_char_count`. -/
def ctrlCharCount (s : String) : ℕ := s.data.countP isC1Ctrl

/-- `_count_cjk_chars` (`"一" <= ch <= "鿿"`, i.e. U+4E00..U+9FFF). -/
def countCjkChars (s : String) : ℕ := s.data.countP isCJK

def badLatinChars : List Char := ['æ', 'å', 'ç', 'Ã', 'Â']

/-- `_bad_latin_run_count`: number of maximal runs of bad Latin chars. -/
def badLatinRunCount : List Char → ℕ
  | [] => 0
  | c :: rest =>
    if badLatinChars.contains c then
      1 + badLatinRunCount (rest.dropWhile (fun d => badLatinChars.contains d))
    else badLatinRunCount rest
termination_by l => l.length
decreasing_by
  · simpa using Nat.lt_succ_of_le (List.dropWhile_sublist _).length_le
  · simp

/-- `_looks_mojibake_text`. -/
def looksMojibakeText (s : String) : Bool :=
  decide (0 < mojibakeScore s) || decide (0 < ctrlCharCount s)

/-- Strict `latin-1` encoding (`str.encode("latin-1", errors="strict")`). -/
def latin1Encode (l : List Char) : Option (List ℕ) :=
  l.mapM (fun c => if c.toNat ≤ 0xff then some c.toNat else none)

/-- The cp1252 mappings for bytes 0x80..0x9F (code point, byte). -/
def cp1252Table : List (ℕ × ℕ) :=
  [(0x20ac, 0x80), (0x201a, 0x82), (0x192, 0x83), (0x201e, 0x84),
   (0x2026, 0x85), (0x2020, 0x86), (0x2021, 0x87), (0x2c6, 0x88),
   (0x2030, 0x89), (0x160, 0x8a), (0x2039, 0x8b), (0x152, 0x8c),
   (0x17d, 0x8e), (0x2018, 0x91), (0x2019, 0x92), (0x201c, 0x93),
   (0x201d, 0x94), (0x2022, 0x95), (0x2013, 0x96), (0x2014, 0x97),
   (0x2dc, 0x98), (0x2122, 0x99), (0x161, 0x9a), (0x203a, 0x9b),
   (0x153, 0x9c), (0x17e, 0x9e), (0x178, 0x9f)]

def cp1252EncodeChar (c : Char) : Option ℕ :=
  let n := c.toNat
  if n ≤ 0x7f then some n
  else if 0xa0 ≤ n ∧ n ≤ 0xff then some n
  else
    match cp1252Table.find? (fun p => decide (p.1 = n)) with
    | some p => some p.2
    | none => none

/-- Strict `cp1252` encoding. -/
def cp1252Encode (l : List Char) : Option (List ℕ) := l.mapM cp1252EncodeChar

/-- Strict UTF-8 decoding (`bytes.decode("utf-8", errors="strict")`). -/
def utf8DecodeStrict : List ℕ → Option (List Char)
  | [] => some []
  | b :: rest =>
    if b < 0x80 then (utf8DecodeStrict rest).map (fun t => Char.ofNat b :: t)
    else if 0xc2 ≤ b ∧ b ≤ 0xdf then
      match rest with
      | b1 :: rest1 =>
        if 0x80 ≤ b1 ∧ b1 ≤ 0xbf then
          (utf8DecodeStrict rest1).map
            (fun t => Char.ofNat ((b - 0xc0) * 0x40 + (b1 - 0x80)) :: t)
        else none
      | [] => none
    else if 0xe0 ≤ b ∧ b ≤ 0xef then
      match rest with
      | b1 :: b2 :: rest2 =>
        if (if b = 0xe0 then 0xa0 else 0x80) ≤ b1 ∧ b1 ≤ (if b = 0xed then 0x9f else 0xbf)
            ∧ 0x80 ≤ b2 ∧ b2 ≤ 0xbf then
          (utf8DecodeStrict rest2).map (fun t =>
            Char.ofNat ((b - 0xe0) * 0x1000 + (b1 - 0x80) * 0x40 + (b2 - 0x80)) :: t)
        else none
      | _ => none
    else if 0xf0 ≤ b ∧ b ≤ 0xf4 then
      match rest with
      | b1 :: b2 :: b3 :: rest3 =>
        if (if b = 0xf0 then 0x90 else 0x80) ≤ b1 ∧ b1 ≤ (if b = 0xf4 then 0x8f else 0xbf)
            ∧ 0x80 ≤ b2 ∧ b2 ≤ 0xbf ∧ 0x80 ≤ b3 ∧ b3 ≤ 0xbf then
          (utf8DecodeStrict rest3).map (fun t =>
            Char.ofNat ((b - 0xf0) * 0x40000 + (b1 - 0x80) * 0x1000
              + (b2 - 0x80) * 0x40 + (b3 - 0x80)) :: t)
        else none
      | _ => none
    else none
termination_by l => l.length
decreasing_by all_goals (simp_wf; try omega)

/-- Lenient UTF-8 decoding with U+FFFD; one byte is consumed per invalid
prefix (a simplification of CPython's handler, which can swallow a whole
truncated sequence).  The fuel argument (initialized to the byte count)
only serves termination and never runs out. -/
def utf8DecodeReplaceAux : ℕ → List ℕ → List Char
  | 0, _ => []
  | _ + 1, [] => []
  | fuel + 1, b :: rest =>
    if b < 0x80 then Char.ofNat b :: utf8DecodeReplaceAux fuel rest
    else if 0xc2 ≤ b ∧ b ≤ 0xdf then
      match rest with
      | b1 :: rest1 =>
        if 0x80 ≤ b1 ∧ b1 ≤ 0xbf then
          Char.ofNat ((b - 0xc0) * 0x40 + (b1 - 0x80)) :: utf8DecodeReplaceAux fuel rest1
        else '�' :: utf8DecodeReplaceAux fuel rest
      | [] => ['�']
    else if 0xe0 ≤ b ∧ b ≤ 0xef then
      match rest with
      | b1 :: b2 :: rest2 =>
        if (if b = 0xe0 then 0xa0 else 0x80) ≤ b1 ∧ b1 ≤ (if b = 0xed then 0x9f else 0xbf)
            ∧ 0x80 ≤ b2 ∧ b2 ≤ 0xbf then
          Char.ofNat ((b - 0xe0) * 0x1000 + (b1 - 0x80) * 0x40 + (b2 - 0x80))
            :: utf8DecodeReplaceAux fuel rest2
        else '�' :: utf8DecodeReplaceAux fuel rest
      | _ => '�' :: utf8DecodeReplaceAux fuel rest
    else if 0xf0 ≤ b ∧ b ≤ 0xf4 then
      match rest with
      | b1 :: b2 :: b3 :: rest3 =>
        if (if b = 0xf0 then 0x90 else 0x80) ≤ b1 ∧ b1 ≤ (if b = 0xf4 then 0x8f else 0xbf)
            ∧ 0x80 ≤ b2 ∧ b2 ≤ 0xbf ∧ 0x80 ≤ b3 ∧ b3 ≤ 0xbf then
          Char.ofNat ((b - 0xf0) * 0x40000 + (b1 - 0x80) * 0x1000
            + (b2 - 0x80) * 0x40 + (b3 - 0x80)) :: utf8DecodeReplaceAux fuel rest3
        else '�' :: utf8DecodeReplaceAux fuel rest
      | _ => '�' :: utf8DecodeReplaceAux fuel rest
    else '�' :: utf8DecodeReplaceAux fuel rest

def utf8DecodeReplace (l : List ℕ) : List Char := utf8DecodeReplaceAux l.length l

inductive SrcCodec where
  | latin1
  | cp1252
deriving DecidableEq

def codecEncode : SrcCodec → List Char → Option (List ℕ)
  | .latin1 => latin1Encode
  | .cp1252 => cp1252Encode

/-- `_try_recode(s, src)`: try to encode `s` and then `strip_ctrl(s)` with
the source codec; decode the first encodable seed as UTF-8, strictly and
then leniently, and strip C1 controls from the result. -/
def tryRecode (s : List Char) (src : SrcCodec) : Option (List Char) :=
  let byteCandidates := [s, stripCtrl s].filterMap (codecEncode src)
  match byteCandidates with
  | [] => none
  | b :: _ =>
    some (stripCtrl (match utf8DecodeStrict b with
      | some t => t
      | none => utf8DecodeReplace b))

structure MojibakeMetrics where
  cjk_count : ℕ
  mojibake_markers : ℕ
  replacement_count : ℕ
  ctrl_count : ℕ
  bad_latin_runs : ℕ
deriving DecidableEq

/-- The `metrics` closure of `_maybe_repair_mojibake_text`. -/
def metricsOf (l : List Char) : MojibakeMetrics :=
  { cjk_count := l.countP isCJK
    mojibake_markers := charMojibakeScore l
    replacement_count := l.count '�'
    ctrl_count := l.countP isC1Ctrl
    bad_latin_runs := badLatinRunCount l }

/-- The `ordering_key` tuple comparison (`>`, lexicographic on
`(cjk, -markers, -(ctrl+replacement), -bad_latin_runs, -replacement)`). -/
def orderingKeyGT (m n : MojibakeMetrics) : Bool :=
  if m.cjk_count ≠ n.cjk_count then decide (n.cjk_count < m.cjk_count)
  else if m.mojibake_markers ≠ n.mojibake_markers then
    decide (m.mojibake_markers < n.mojibake_markers)
  else if m.ctrl_count + m.replacement_count ≠ n.ctrl_count + n.replacement_count then
    decide (m.ctrl_count + m.replacement_count < n.ctrl_count + n.replacement_count)
  else if m.bad_latin_runs ≠ n.bad_latin_runs then
    decide (m.bad_latin_runs < n.bad_latin_runs)
  else decide (m.replacement_count < n.replacement_count)

def maxRepairRounds (l : List Char) : ℕ :=
  2 + (if 2 < charMojibakeScore l then 1 else 0) + (if 5 < charMojibakeScore l then 1 else 0)

def dedupKeepFirstAux [DecidableEq α] (seen : List α) : List α → List α
  | [] => []
  | a :: rest =>
    if a ∈ seen then dedupKeepFirstAux seen rest
    else a :: dedupKeepFirstAux (a :: seen) rest

/-- De-duplicate keeping first occurrences (the `seen`-set pattern; also a
determinization of Python set iteration order). -/
def dedupKeepFirst [DecidableEq α] (l : List α) : List α := dedupKeepFirstAux [] l

/-- One round of candidate generation: recode every current candidate with
both codecs, keeping non-empty results not already present
(`if candidate and candidate not in candidates`). -/
def recodeRound (cands : List (List Char)) : List (List Char) :=
  let gen := (cands.map (fun seed =>
    [SrcCodec.latin1, SrcCodec.cp1252].filterMap (fun src => tryRecode seed src))).flatten
  dedupKeepFirst (gen.filter (fun c => c ≠ [] ∧ ¬ cands.contains c))

def repairRoundsLoop : ℕ → List (List Char) → List (List Char)
  | 0, cands => cands
  | n + 1, cands =>
    let nextRound := recodeRound cands
    if nextRound = [] then cands else repairRoundsLoop n (cands ++ nextRound)

/-- The best-candidate selection loop: start from `strip_ctrl(text)` and
keep any cleaned candidate whose ordering key is strictly greater. -/
def selectBestRepair (text : List Char) (cands : List (List Char)) : List Char :=
  cands.foldl (fun best c =>
    let cleaned := stripCtrl c
    if orderingKeyGT (metricsOf cleaned) (metricsOf best) then cleaned else best)
    (stripCtrl text)

/-- The seven bad markers of the anti-overrepair shortcut in
`_maybe_repair_mojibake_text`. -/
def badMarkers7 : List Char := ['Ã', 'Â', 'æ', 'ä', 'å', 'ç', 'ð']

/-- Source translation of `_maybe_repair_mojibake_text`. -/
def maybeRepairMojibakeText (text : String) : String :=
  if text = "" then text
  else if 2 ≤ countCjkChars text ∧ ¬ (badMarkers7.any (fun m => text.data.contains m)) then
    String.mk (stripCtrl text.data)
  else
    let cands := repairRoundsLoop (maxRepairRounds text.data) [text.data]
    let best := selectBestRepair text.data cands
    if ¬ (looksMojibakeText text = true) then String.mk (stripCtrl text.data)
    else String.mk (stripCtrl best)

/-! ## Summary sanitization (`_has_help_seeking`, `_sanitize_summary`,
`_default_summary_schema`) -/

def helpSeekingHints : List String :=
  ["借钱", "借我", "转账", "打钱", "资助", "赞助", "给我钱", "求助", "救济",
   "能不能给", "能否给", "帮我出", "帮我付", "你出钱", "帮我转", "给点钱"]

def hasHelpSeeking (transcript : String) : Bool :=
  helpSeekingHints.any (fun h => containsSub transcript h)

/-- A JSON field value as far as `_sanitize_summary` inspects it: a list
of (rendered) elements, or a non-list with its `str()` rendering. -/
inductive JsonFieldVal where
  | list (xs : List String)
  | nonlist (rendered : String)
deriving DecidableEq

/-- The summary object returned by the LLM: each field may be absent
(`none`).  `goal`/`state` are modelled as strings (the source applies
`or ""`, so `None` collapses to `""`). -/
structure SummaryIn where
  goal : Option String
  state : Option String
  open_loops : Option JsonFieldVal
  constraints : Option JsonFieldVal
  tone_notes : Option JsonFieldVal
deriving DecidableEq

structure SummaryOut where
  goal : String
  state : String
  open_loops : List String
  constraints : List String
  tone_notes : List String
deriving DecidableEq

/-- `_default_summary_schema`. -/
def defaultSummarySchema : SummaryOut :=
  { goal := "当前在推进什么"
    state := "进度到哪/现在什么状态"
    open_loops := ["未完成事项/待决定点"]
    constraints := ["硬约束：工具/时间/边界/要求"]
    tone_notes := ["语气与互动基调提示（很短）"] }

/-- `setdefault(field, [])` followed by the `isinstance(…, list)` coercion
(`[str(value)]` for non-lists). -/
def coerceListField : Option JsonFieldVal → List String
  | none => []
  | some (.list xs) => xs
  | some (.nonlist r) => [r]

def badGoalPhrases : List String :=
  ["寻求经济上的帮助", "寻求经济帮助", "请求经济帮助", "求助对方", "让对方出钱"]

def badStatePhrases : List String :=
  ["愿意提供帮助", "表示愿意提供帮助", "同意提供帮助", "已提供帮助", "答应提供帮助"]

def stripSetChars : List Char := ['，', '。', ';', '；', ' ']

/-- Python `s.strip("，。;； ")`. -/
def pyStripSet (s : String) : String :=
  String.mk (((s.data.dropWhile (fun c => stripSetChars.contains c)).reverse.dropWhile
    (fun c => stripSetChars.contains c)).reverse)

/-- The bad-phrase scrubbing loop:
`for p in phrases: if p in g: g = g.replace(p, "").strip("，。;； ")`. -/
def scrubPhrases (phrases : List String) (s : String) : String :=
  phrases.foldl (fun g p => if containsSub g p then pyStripSet (pyReplace g p "") else g) s

/-- The `open_loops` cleanup of `_sanitize_summary`. -/
def cleanOpenLoop (s : String) : String :=
  pyStripSet (pyReplace s "需要解决经济困难的具体方案" "需要明确下一步安排/计划")

def goalFallback : String := "概括本段对话的显式主题（若无明确目标则写‘闲聊/状态更新’）"

def stateFallback : String := "概括当前显式进展（若无进展则写‘无明显推进’）"

/-- Source translation of `_sanitize_summary`; `none` models a non-dict
`obj`. -/
def sanitizeSummary (transcript : String) (obj : Option SummaryIn) : SummaryOut :=
  match obj with
  | none => defaultSummarySchema
  | some o =>
    let wantHelp := hasHelpSeeking transcript
    let goal0 := o.goal.getD ""
    let state0 := o.state.getD ""
    let loops0 := coerceListField o.open_loops
    let cons0 := coerceListField o.constraints
    let tones0 := coerceListField o.tone_notes
    let goal1 := if wantHelp then goal0 else scrubPhrases badGoalPhrases goal0
    let state1 := if wantHelp then state0 else scrubPhrases badStatePhrases state0
    let loops1 := if wantHelp then loops0 else loops0.map cleanOpenLoop
    { goal := if goal1 = "" then goalFallback else goal1
      state := if state1 = "" then stateFallback else state1
      open_loops := loops1
      constraints := cons0
      tone_notes := tones0 }

/-- The C9 failing input: an LLM `goal` in which removing the banned
phrase `求助对方` splices the banned phrase `寻求经济帮助` together. -/
def summaryC9In : SummaryIn :=
  { goal := some "寻求经济求助对方帮助"
    state := some ""
    open_loops := none
    constraints := none
    tone_notes := none }

/-! ## Tool-thread sanitization (`_sanitize_messages_for_upstream`,
`routes_openai_proxy.py`) -/

structure ToolCallEntry where
  id : String
deriving DecidableEq

/-- A chat message as far as the sanitizer inspects it.  `tool_call_id`
uses `""` for a missing field; `tool_calls`/`function_call` use `none`
for an absent or `None` field. -/
structure ChatMsg where
  role : String
  content : Option String
  tool_call_id : String
  tool_calls : Option (List ToolCallEntry)
  function_call : Option String
deriving DecidableEq

/-- Collect the non-empty stripped ids of an assistant's `tool_calls`. -/
def collectCallIds (tc : List ToolCallEntry) : List String :=
  tc.filterMap (fun t => let i := pyStrip t.id; if i = "" then none else some i)

/-- `strip_last_assistant_tool_fields`: remove `tool_calls` and
`function_call` from the most recent assistant message. -/
def stripLastAssistantToolFields : List ChatMsg → List ChatMsg
  | [] => []
  | m :: rest =>
    if rest.any (fun x => decide (x.role = "assistant")) then
      m :: stripLastAssistantToolFields rest
    else if m.role = "assistant" then
      { m with tool_calls := none, function_call := none } :: rest
    else m :: stripLastAssistantToolFields rest

/-- The walk of `_sanitize_messages_for_upstream`, with `cleaned` as the
accumulator and `pending` as the (de-duplicated) set of outstanding tool
call ids. -/
def sanitizeLoop : List ChatMsg → List ChatMsg → List String → List ChatMsg
  | cleaned, [], pending =>
    if pending ≠ [] then stripLastAssistantToolFields cleaned else cleaned
  | cleaned, m :: rest, pending =>
    if m.role = "tool" then
      let tcid := pyStrip m.tool_call_id
      if tcid ≠ "" ∧ tcid ∈ pending then
        sanitizeLoop (cleaned ++ [m]) rest (pending.erase tcid)
      else sanitizeLoop cleaned rest pending
    else
      let cleaned2 := if pending ≠ [] then stripLastAssistantToolFields cleaned else cleaned
      if m.role = "assistant" ∧ m.tool_calls ≠ none then
        sanitizeLoop (cleaned2 ++ [m]) rest (dedupKeepFirst (collectCallIds (m.tool_calls.getD [])))
      else if m.role = "assistant" ∧ m.function_call ≠ none then
        match m.content with
        | none => sanitizeLoop cleaned2 rest []
        | some c =>
          if pyStrip c = "" then sanitizeLoop cleaned2 rest []
          else sanitizeLoop (cleaned2 ++ [m]) rest []
      else sanitizeLoop (cleaned2 ++ [m]) rest []

/-- Source translation of `_sanitize_messages_for_upstream` (applied by
`chat_completions` when the request carries no `tools`/`functions`). -/
def sanitizeMessagesForUpstream (messages : List ChatMsg) : List ChatMsg :=
  sanitizeLoop [] messages []

def idsOfOpt : Option (List ToolCallEntry) → List String
  | none => []
  | some tc => collectCallIds tc

/-- Claim C6's predicate: every `tool` message's `tool_call_id` occurs in
the `tool_calls` of the nearest preceding assistant message. -/
def toolThreadOkFrom (last : Option ChatMsg) : List ChatMsg → Bool
  | [] => true
  | m :: rest =>
    if m.role = "tool" then
      (match last with
       | none => false
       | some a => decide (pyStrip m.tool_call_id ∈ idsOfOpt a.tool_calls)) &&
        toolThreadOkFrom last rest
    else if m.role = "assistant" then toolThreadOkFrom (some m) rest
    else toolThreadOkFrom last rest

def toolThreadOk (l : List ChatMsg) : Bool := toolThreadOkFrom none l

/-- Amended C6 predicate: every `tool` message follows some assistant
message, and matches it whenever that assistant still carries a
`tool_calls` field. -/
def toolThreadOkWeakFrom (last : Option ChatMsg) : List ChatMsg → Bool
  | [] => true
  | m :: rest =>
    if m.role = "tool" then
      (match last with
       | none => false
       | some a =>
         match a.tool_calls with
         | none => true
         | some tc => decide (pyStrip m.tool_call_id ∈ collectCallIds tc)) &&
        toolThreadOkWeakFrom last rest
    else if m.role = "assistant" then toolThreadOkWeakFrom (some m) rest
    else toolThreadOkWeakFrom last rest

def toolThreadOkWeak (l : List ChatMsg) : Bool := toolThreadOkWeakFrom none l

/-- C6 counterexample messages: an assistant with two tool calls of which
only the first is answered. -/
def msgAssistantAB : ChatMsg :=
  { role := "assistant", content := some "x", tool_call_id := ""
    tool_calls := some [⟨"a"⟩, ⟨"b"⟩], function_call := none }

def msgToolA : ChatMsg :=
  { role := "tool", content := some "result", tool_call_id := "a"
    tool_calls := none, function_call := none }

/-! ## Gateway context: keyword normalization and resolution
(`_normalize_kw`, `_derive_kw_from_text`, `_is_emo_chitchat`) -/

/-- Python `"x,,y".split(",")` (keeps empty parts). -/
def splitOnComma : List Char → List (List Char)
  | [] => [[]]
  | c :: rest =>
    if c = ',' then [] :: splitOnComma rest
    else
      match splitOnComma rest with
      | [] => [[c]]
      | p :: ps => (c :: p) :: ps

/-- Source translation of `_normalize_kw`: strip, unify separators to `,`,
split, strip parts, drop empties, de-duplicate preserving order, rejoin. -/
def normalizeKw (keyword : String) : String :=
  let kw := pyStrip keyword
  if kw = "" then ""
  else
    let kw2 := kw.data.map (fun c => if c = '，' ∨ c = ';' ∨ c = '；' then ',' else c)
    let parts := ((splitOnComma kw2).map (fun p => pyStripList p)).filter (fun p => p ≠ [])
    String.intercalate "," (dedupKeepFirst (parts.map String.mk))

/-- Maximal runs of CJK characters (the matches of `[一-鿿]+`). -/
def cjkRuns : List Char → List (List Char)
  | [] => []
  | c :: rest =>
    if isCJK c then (c :: rest.takeWhile isCJK) :: cjkRuns (rest.dropWhile isCJK)
    else cjkRuns rest
termination_by l => l.length
decreasing_by
  · simpa using Nat.lt_succ_of_le (List.dropWhile_sublist _).length_le
  · simp

def kwStopTokens : List String :=
  ["哥哥", "哥", "类", "神代", "喵", "猫咪", "小猫咪", "宝宝", "亲", "抱", "mua", "啾", "嘿嘿"]

def kwCommonWords : List String :=
  ["就是", "然后", "那个", "这个", "怎么", "为什么", "可以", "不要", "不是"]

/-- The candidate-collection loop of `_derive_kw_from_text` (skip empties,
stop tokens, short runs and filler words; de-duplicate; break at `k`). -/
def deriveCollect (k : ℕ) : List String → List String → List String
  | [], cands => cands
  | s :: rest, cands =>
    if s = "" ∨ s ∈ kwStopTokens ∨ s.length < 2 ∨ s ∈ kwCommonWords then
      deriveCollect k rest cands
    else
      let cands2 := if s ∈ cands then cands else cands ++ [s]
      if k ≤ cands2.length then cands2
      else deriveCollect k rest cands2

/-- Source translation of `_derive_kw_from_text` (`k` defaults to 2). -/
def deriveKwFromText (text : String) (k : ℕ := 2) : String :=
  let t := pyStrip text
  if t = "" then ""
  else
    let seqs := (cjkRuns t.data).map String.mk
    let cands := deriveCollect k seqs []
    if cands = [] then "" else String.intercalate "," cands

def emoMarkers : List String :=
  ["哥哥", "类", "喵", "猫咪", "小猫咪", "宝宝", "亲", "抱", "mua", "啾", "嘿嘿",
   "🥺", "😙", "😗", "😽", "😭", "🥰", "💖", "🖤"]

/-- Source translation of `_is_emo_chitchat`. -/
def isEmoChitchat (text : String) : Bool :=
  let t := pyStrip text
  if t = "" then false else emoMarkers.any (fun m => containsSub t m)

/-- Source translation of `_truncate_ctx` (`CTX_MAX` defaults to 400). -/
def truncateCtx (ctxMax : ℕ) (text : String) : String :=
  let t := (pyStripList text.data).filter (fun c => c ≠ '\r')
  if t = [] then ""
  else if t.length ≤ ctxMax then String.mk t
  else String.mk (((t.take ctxMax).reverse.dropWhile isPySpace).reverse) ++ "…"

/-! ## Gateway context: evidence assembly, cache and handler -/

/-- The evidence item dict built by `_build_evidence_item` (only the
fields the later adapter reads; `score_raw`/`score_final` of 1.0 are set
on the dict but not read back because the adapter looks up a `score` key
that is absent). -/
structure GatewayEvItem where
  id : String
  source_type : String
  source_id : String
  text : String
  reason : String
  ts : ℕ
deriving DecidableEq

def buildEvidenceItem (index : ℕ) (source_type source_id text : String) (ts : ℕ) :
    GatewayEvItem :=
  { id := "ev_" ++ toString index
    source_type := source_type
    source_id := source_id
    text := text
    reason := if source_type = "keyword" then "keyword_hit" else "fallback_hit"
    ts := ts }

/-- Source translation of `_build_gateway_evidence`. -/
def buildGatewayEvidence (nowTs : ℕ)
    (primary_keyword primary_text fallback_keyword fallback_text : String) :
    List GatewayEvItem :=
  let e0 : List GatewayEvItem :=
    if primary_text ≠ "" then
      [buildEvidenceItem 0 "keyword" primary_keyword primary_text nowTs]
    else []
  if fallback_text ≠ "" then
    e0 ++ [buildEvidenceItem e0.length "fallback" fallback_keyword fallback_text nowTs]
  else e0

/-- Source translation of `_adapt_keyword_candidates`.  The built item has
no `score` key, so `_safe_float(item.get("score"), 1.0)` yields 1.0. -/
def adaptKeywordCandidates (nowTs : ℕ) (items : List GatewayEvItem) : List Candidate :=
  items.map (fun item =>
    { id := item.id
      source_type := "keyword"
      source_id := item.source_id
      text := item.text
      chunk_id := ""
      reason := if item.reason = "" then "keyword_hit" else item.reason
      ts := if item.ts = 0 then nowTs else item.ts
      keywordRaw := 1
      vectorRaw := 0 })

/-- A vector candidate as the adapter reads it (`doc_id` stands for the
`doc_id`/`document_id`/`id` fallback chain; `ts = 0` means missing). -/
structure VecCand where
  doc_id : String
  chunk_id : String
  text : String
  score : ℚ
  ts : ℕ
deriving DecidableEq

/-- Source translation of `_adapt_vector_candidates`. -/
def adaptVectorCandidates (nowTs : ℕ) (raw : List VecCand) : List Candidate :=
  raw.enum.map (fun p =>
    { id := "vec_" ++ toString p.1
      source_type := "vector"
      source_id := p.2.doc_id
      text := p.2.text
      chunk_id := p.2.chunk_id
      reason := "vector_hit"
      ts := if p.2.ts = 0 then nowTs else p.2.ts
      keywordRaw := 0
      vectorRaw := p.2.score })

/-- One of `summaries["s4"]` / `summaries["s60"]`; `ts` holds the value of
`_parse_iso_ts(created_at)` (ISO-8601 parsing itself is not modelled). -/
structure SummaryEntry where
  summary : String
  ts : ℕ
deriving DecidableEq

structure SummariesIn where
  s4 : Option SummaryEntry
  s60 : Option SummaryEntry
deriving DecidableEq

/-- Source translation of `_build_summary_candidates`. -/
def buildSummaryCandidates (nowTs : ℕ) (summaries : SummariesIn) (text : String) :
    List Candidate :=
  let cur : List Candidate :=
    if text ≠ "" then
      [{ id := "input_0", source_type := "current_input", source_id := "current_input",
         text := text, chunk_id := "", reason := "当前输入事实优先", ts := nowTs,
         keywordRaw := 0, vectorRaw := 0 }]
    else []
  let s4c : List Candidate :=
    match summaries.s4 with
    | some e =>
      if e.summary ≠ "" then
        [{ id := "s4_0", source_type := "s4", source_id := "s4", text := e.summary,
           chunk_id := "", reason := "来自S4的事实约束", ts := e.ts,
           keywordRaw := 0, vectorRaw := 0 }]
      else []
    | none => []
  let s60c : List Candidate :=
    match summaries.s60 with
    | some e =>
      if e.summary ≠ "" then
        [{ id := "s60_0", source_type := "s60", source_id := "s60", text := e.summary,
           chunk_id := "", reason := "来自S60的事实约束", ts := e.ts,
           keywordRaw := 0, vectorRaw := 0 }]
      else []
    | none => []
  cur ++ s4c ++ s60c

/-- `_compute_grounding_mode`. -/
def computeGroundingMode (evidence : List EvidenceRec) : String :=
  match evidence with
  | [] => "none"
  | top1 :: _ =>
    let valid := evidence.countP (fun ev => decide (pyStrip ev.text ≠ ""))
    if top1.score_final < 9/20 ∧ valid < 2 then "weak" else "strong"

/-- The result object assembled by the `tools/call gateway_ctx` handler
(the opaque `raw` pass-through and the two `ms_dify_*` timings are not
modelled). -/
structure ResObj where
  keyword : String
  keyword_primary : String
  keyword_used : String
  ctx : String
  evidence : List EvidenceRec
  used_evidence_ids : List String
  retrieval_profile_version : String
  error : Option String
  cache_hit : Bool
  cache_miss_reason : String
  grounding_mode : String
deriving DecidableEq

/-- A `_cache` entry `(stored_at, ctx, res_obj)`. -/
structure CacheEntry where
  stored_at : ℚ
  ctx : String
  res : ResObj
deriving DecidableEq

/-- The process-local `_cache` dict, in insertion order. -/
abbrev GatewayCache : Type := List (String × CacheEntry)

def dictGet : GatewayCache → String → Option CacheEntry
  | [], _ => none
  | (k2, v) :: rest, k => if k2 = k then some v else dictGet rest k

/-- Python dict assignment: replace in place, or append. -/
def dictSet : GatewayCache → String → CacheEntry → GatewayCache
  | [], k, v => [(k, v)]
  | (k2, v2) :: rest, k, v =>
    if k2 = k then (k2, v) :: rest else (k2, v2) :: dictSet rest k v

/-- `min(_cache.items(), key=lambda kv: kv[1][0])[0]`: the first key with
the smallest `stored_at`. -/
def oldestKey (cache : GatewayCache) : Option String :=
  (cache.foldl (fun best p =>
    match best with
    | none => some p
    | some q => if p.2.stored_at < q.2.stored_at then some p else some q)
    (none : Option (String × CacheEntry))).map Prod.fst

def dictPop (cache : GatewayCache) (k : String) : GatewayCache :=
  List.filter (fun p => decide (p.1 ≠ k)) cache

/-- The oldest-first eviction after a write
(`if len(_cache) > MAX_CACHE_SIZE: _cache.pop(min ...)`). -/
def evictOldestIfOver (maxSize : ℕ) (cache : GatewayCache) : GatewayCache :=
  if maxSize < cache.length then
    match oldestKey cache with
    | some k => dictPop cache k
    | none => cache
  else cache

/-- Source translation of `_has_cache_for_other_profile`. -/
def hasCacheForOtherProfile (cache : GatewayCache) (user keyword profile : String) : Bool :=
  let keyStart := user ++ "||" ++ keyword ++ "||"
  let legacyKey := user ++ "||" ++ keyword
  cache.any (fun p =>
    decide (p.1 = legacyKey) ||
      (keyStart.data.isPrefixOf p.1.data &&
        (decide (p.1.data.drop keyStart.data.length ≠ []) &&
          decide (String.mk (p.1.data.drop keyStart.data.length) ≠ profile))))

/-- The environment-derived configuration of the gateway (defaults as in
the source). -/
structure GatewayEnv where
  ttl : ℚ := 20
  maxSize : ℕ := 256
  profile : String := "v1.0.0"
  topN : ℕ := 3
  ctxMax : ℕ := 400
  garbledRepairEnabled : Bool := true
  defaultProtocolVersion : String := "2025-06-18"
deriving DecidableEq

/-- The keyword-resolution policy of the `tools/call` path (steps 1.1–1.3
of `_handle_jsonrpc`; the dead `_is_garbage_kw` block is skipped because
that symbol is never defined). -/
def resolveKeyword (env : GatewayEnv) (keyword text : String) : String :=
  let kw1 :=
    if keyword = "" ∨ (env.garbledRepairEnabled ∧ looksGarbledKeyword keyword) then
      let derived := deriveKwFromText text
      if derived ≠ "" then derived else ""
    else keyword
  let kw2 :=
    if kw1 = "" then (if isEmoChitchat text then "哥哥,小猫咪" else "哥哥,撒娇")
    else kw1
  normalizeKw kw2

structure ToolArgs where
  keyword : String
  text : String
  user : String
  summaries : SummariesIn
deriving DecidableEq

/-- An MCP tool result `{content:[{type:"text",text}], isError, data}`. -/
structure ToolResult where
  text : String
  isError : Bool
  data : ResObj
deriving DecidableEq

/-- What `_extract_outputs` yields from a RAG response. -/
structure DifyOut where
  result : String
  chat_text : String
  vector_candidates : List VecCand
deriving DecidableEq

/-- `(user, primary_keyword, cache_key)` as computed at the top of the
`tools/call` path. -/
def toolsCallKeyAndKw (env : GatewayEnv) (args : ToolArgs) : String × String × String :=
  let keyword0 := pyStrip args.keyword
  let text := pyStrip args.text
  let user := pyStrip (if args.user = "" then "mcp" else args.user)
  let primaryKeyword := resolveKeyword env keyword0 text
  (user, primaryKeyword, user ++ "||" ++ primaryKeyword ++ "||" ++ env.profile)

def toolsCallCacheKey (env : GatewayEnv) (args : ToolArgs) : String :=
  (toolsCallKeyAndKw env args).2.2

def toolsCallPrimaryKeyword (env : GatewayEnv) (args : ToolArgs) : String :=
  (toolsCallKeyAndKw env args).2.1

/-- `picked = (result or "").strip() or (chat_text or "").strip()`,
truncated. -/
def pickSnippet (env : GatewayEnv) (outs : DifyOut) : String :=
  truncateCtx env.ctxMax
    (if pyStrip outs.result ≠ "" then pyStrip outs.result else pyStrip outs.chat_text)

/-- The part of the miss path that talks to the RAG workflow: the primary
call and the optional fallback call.  `oracle` models
`_call_dify_anchor` composed with `_extract_outputs`; a `.error` value
models any exception raised there. -/
structure RetrievalOut where
  usedKeyword : String
  ctx : String
  outs : DifyOut
  primaryHit : String
  fallbackKeyword : String
  fallbackHit : String
deriving DecidableEq

def runRetrieval (env : GatewayEnv) (oracle : String → Except String DifyOut)
    (primaryKeyword text : String) : Except String RetrievalOut :=
  match oracle primaryKeyword with
  | .error e => .error e
  | .ok outs =>
    let ctx := pickSnippet env outs
    if ctx = "" then
      let fallbackKeyword :=
        normalizeKw (if isEmoChitchat text then "哥哥,小猫咪" else "哥哥,撒娇")
      if fallbackKeyword ≠ "" ∧ fallbackKeyword ≠ primaryKeyword then
        match oracle fallbackKeyword with
        | .error e => .error e
        | .ok outs2 =>
          let ctx2 := pickSnippet env outs2
          if ctx2 ≠ "" then
            .ok { usedKeyword := fallbackKeyword, ctx := ctx2, outs := outs2,
                  primaryHit := "", fallbackKeyword := fallbackKeyword, fallbackHit := ctx2 }
          else
            .ok { usedKeyword := primaryKeyword, ctx := "", outs := outs,
                  primaryHit := "", fallbackKeyword := fallbackKeyword, fallbackHit := "" }
      else
        .ok { usedKeyword := primaryKeyword, ctx := "", outs := outs,
              primaryHit := "", fallbackKeyword := fallbackKeyword, fallbackHit := "" }
    else
      .ok { usedKeyword := primaryKeyword, ctx := ctx, outs := outs,
            primaryHit := ctx, fallbackKeyword := "", fallbackHit := "" }

/-- `_debug_fields` merged onto a result object. -/
def debugFields (cache_hit : Bool) (cache_miss_reason keyword_primary keyword_used : String)
    (evidence : List EvidenceRec) (r : ResObj) : ResObj :=
  { r with
    cache_hit := cache_hit
    cache_miss_reason := cache_miss_reason
    keyword_primary := keyword_primary
    keyword_used := keyword_used
    grounding_mode := computeGroundingMode evidence }

/-- The cache-miss path of the `tools/call` handler (the `try` block):
run retrieval, then either build the result, write it to the cache and
evict, or return the error result without touching the cache. -/
def handleToolsCallMiss (env : GatewayEnv) (oracle : String → Except String DifyOut)
    (cache : GatewayCache) (args : ToolArgs)
    (primaryKeyword text cacheKey missReason : String) (nowW : ℚ) (nowTs : ℕ) :
    ToolResult × GatewayCache :=
  match runRetrieval env oracle primaryKeyword text with
  | .error e =>
    let res :=
      debugFields false missReason primaryKeyword primaryKeyword []
        { keyword := primaryKeyword, keyword_primary := primaryKeyword,
          keyword_used := primaryKeyword, ctx := "", evidence := [],
          used_evidence_ids := [],
          retrieval_profile_version := env.profile, error := some e,
          cache_hit := false, cache_miss_reason := missReason, grounding_mode := "" }
    ({ text := e, isError := true, data := res }, cache)
  | .ok r =>
    let kwCands := adaptKeywordCandidates nowTs
      (buildGatewayEvidence nowTs primaryKeyword r.primaryHit r.fallbackKeyword r.fallbackHit)
    let vecCands := adaptVectorCandidates nowTs r.outs.vector_candidates
    let sumCands := buildSummaryCandidates nowTs args.summaries text
    let evidence := scoreAndRankCandidates nowTs (kwCands ++ vecCands ++ sumCands) env.topN
    let usedIds := (evidence.filter (fun ev => decide (ev.id ≠ ""))).map (fun ev => ev.id)
    let res :=
      debugFields false missReason primaryKeyword r.usedKeyword evidence
        { keyword := r.usedKeyword, keyword_primary := primaryKeyword,
          keyword_used := r.usedKeyword, ctx := r.ctx, evidence := evidence,
          used_evidence_ids := usedIds,
          retrieval_profile_version := env.profile, error := none,
          cache_hit := false, cache_miss_reason := missReason, grounding_mode := "" }
    let cache2 := evictOldestIfOver env.maxSize
      (dictSet cache cacheKey { stored_at := nowW, ctx := r.ctx, res := res })
    ({ text := r.ctx, isError := false, data := res }, cache2)

/-- Source translation of the `tools/call gateway_ctx` pipeline of
`_handle_jsonrpc`: keyword resolution, cache probe with miss-reason
classification, fresh-hit short circuit, and the miss path.  `now` models
`time.time()` at the cache read, `nowW` at the cache write and `nowTs`
the integer clock used for evidence timestamps. -/
def handleToolsCall (env : GatewayEnv) (oracle : String → Except String DifyOut)
    (cache : GatewayCache) (args : ToolArgs) (now nowW : ℚ) (nowTs : ℕ) :
    ToolResult × GatewayCache :=
  let user := (toolsCallKeyAndKw env args).1
  let primaryKeyword := (toolsCallKeyAndKw env args).2.1
  let cacheKey := (toolsCallKeyAndKw env args).2.2
  let text := pyStrip args.text
  let missReason0 :=
    if hasCacheForOtherProfile cache user primaryKeyword env.profile then "profile_changed"
    else "not_found"
  match dictGet cache cacheKey with
  | some hit =>
    let missReason := if env.ttl < now - hit.stored_at then "expired" else "bypassed"
    if now - hit.stored_at ≤ env.ttl then
      let res0 := hit.res
      let keywordUsed := if res0.keyword = "" then primaryKeyword else res0.keyword
      let res1 := debugFields true missReason primaryKeyword keywordUsed res0.evidence
        { res0 with retrieval_profile_version := env.profile }
      ({ text := hit.ctx, isError := false, data := res1 }, cache)
    else
      handleToolsCallMiss env oracle cache args primaryKeyword text cacheKey missReason nowW nowTs
  | none =>
    handleToolsCallMiss env oracle cache args primaryKeyword text cacheKey missReason0 nowW nowTs

/-- Decidable fresh-hit probe, used to state claim C4. -/
def freshHitB (env : GatewayEnv) (cache : GatewayCache) (key : String) (now : ℚ) : Bool :=
  match dictGet cache key with
  | some hit => decide (now - hit.stored_at ≤ env.ttl)
  | none => false

/-! ## JSON-RPC dispatch and HTTP surface of `/gateway_ctx` -/

/-- A JSON-RPC message as far as the dispatcher inspects it.
`idPresent = false` models `"id" not in msg` (a notification). -/
structure RpcMsg where
  idPresent : Bool
  idVal : String
  method : String
  paramsProtocolVersion : String
  paramsName : String
  args : ToolArgs
deriving DecidableEq

inductive RpcPayload where
  | initializeResult (protocolVersion : String)
  | toolsListResult
  | toolResult (t : ToolResult)
deriving DecidableEq

inductive RpcOut where
  | result (id : String) (r : RpcPayload)
  | rpcError (id : String) (code : ℤ) (message : String)
deriving DecidableEq

def rpcOutId : RpcOut → String
  | .result i _ => i
  | .rpcError i _ _ => i

def supportedVersions : List String :=
  ["2025-11-25", "2025-06-18", "2025-03-26", "2024-11-05", "2024-10-07"]

/-- Source translation of `_negotiate_protocol_version`. -/
def negotiateProtocolVersion (env : GatewayEnv) (paramsPv headerPv : String) : String :=
  if paramsPv ≠ "" ∧ paramsPv ∈ supportedVersions then paramsPv
  else if headerPv ≠ "" ∧ headerPv ∈ supportedVersions then headerPv
  else if env.defaultProtocolVersion ∈ supportedVersions then env.defaultProtocolVersion
  else "2025-06-18"

/-- Source translation of `_handle_jsonrpc`'s dispatch: every branch
returns `none` exactly when the message is a notification; the
`tools/call` pipeline (and its cache write) runs regardless. -/
def handleJsonrpc (env : GatewayEnv) (oracle : String → Except String DifyOut)
    (headerPv : String) (cache : GatewayCache) (msg : RpcMsg) (now nowW : ℚ) (nowTs : ℕ) :
    Option RpcOut × GatewayCache :=
  let pv := negotiateProtocolVersion env msg.paramsProtocolVersion headerPv
  if msg.method = "initialize" then
    (if msg.idPresent then some (.result msg.idVal (.initializeResult pv)) else none, cache)
  else if msg.method = "tools/list" then
    (if msg.idPresent then some (.result msg.idVal .toolsListResult) else none, cache)
  else if msg.method ≠ "tools/call" then
    (if msg.idPresent then
      some (.rpcError msg.idVal (-32601) ("Method not found: " ++ msg.method))
     else none, cache)
  else if msg.paramsName ≠ "gateway_ctx" then
    (if msg.idPresent then
      some (.rpcError msg.idVal (-32601) ("Unknown tool: " ++ msg.paramsName))
     else none, cache)
  else
    let out := handleToolsCall env oracle cache msg.args now nowW nowTs
    (if msg.idPresent then some (.result msg.idVal (.toolResult out.1)) else none, out.2)

/-- The batch loop of `gateway_ctx_mcp`: process messages in order,
threading the cache, and collect the non-`None` responses. -/
def processBatch (env : GatewayEnv) (oracle : String → Except String DifyOut)
    (headerPv : String) (now nowW : ℚ) (nowTs : ℕ) :
    List RpcMsg → GatewayCache → List RpcOut × GatewayCache
  | [], cache => ([], cache)
  | m :: rest, cache =>
    let out := handleJsonrpc env oracle headerPv cache m now nowW nowTs
    let outRest := processBatch env oracle headerPv now nowW nowTs rest out.2
    (match out.1 with
     | some x => x :: outRest.1
     | none => outRest.1, outRest.2)

inductive RpcBody where
  | single (m : RpcMsg)
  | batch (ms : List RpcMsg)
deriving DecidableEq

/-- The HTTP response of `POST /gateway_ctx`: 204 without a body, a single
JSON-RPC object, or a JSON array (which the code returns for every batch,
even an empty one). -/
inductive HttpOut where
  | noContent
  | one (r : RpcOut)
  | many (rs : List RpcOut)
deriving DecidableEq

/-- Source translation of the POST branch of `gateway_ctx_mcp`. -/
def gatewayCtxPost (env : GatewayEnv) (oracle : String → Except String DifyOut)
    (headerPv : String) (cache : GatewayCache) (body : RpcBody) (now nowW : ℚ) (nowTs : ℕ) :
    HttpOut × GatewayCache :=
  match body with
  | .batch ms =>
    let out := processBatch env oracle headerPv now nowW nowTs ms cache
    (.many out.1, out.2)
  | .single m =>
    let out := handleJsonrpc env oracle headerPv cache m now nowW nowTs
    (match out.1 with
     | some r => .one r
     | none => .noContent, out.2)

/-! ## Concrete inputs for witnesses and counterexamples -/

def envW : GatewayEnv := {}

def oracleErr : String → Except String DifyOut := fun _ => .error "boom"

def resObjW : ResObj :=
  { keyword := "k", keyword_primary := "k", keyword_used := "k", ctx := "old",
    evidence := [], used_evidence_ids := [], retrieval_profile_version := "v1.0.0",
    error := none, cache_hit := false, cache_miss_reason := "not_found",
    grounding_mode := "none" }

def argsW : ToolArgs :=
  { keyword := "k", text := "", user := "u", summaries := { s4 := none, s60 := none } }

def cacheW : GatewayCache :=
  [("u||k||v1.0.0", { stored_at := 0, ctx := "old", res := resObjW })]

def notifMsgW : RpcMsg :=
  { idPresent := false, idVal := "", method := "initialize",
    paramsProtocolVersion := "", paramsName := "", args := argsW }

def callMsgW : RpcMsg :=
  { idPresent := true, idVal := "7", method := "initialize",
    paramsProtocolVersion := "2025-06-18", paramsName := "", args := argsW }

/-- The most recent assistant message of a list (claim-side helper for
the tool-thread predicates). -/
def lastAssistant (l : List ChatMsg) : Option ChatMsg :=
  l.foldl (fun acc m => if m.role = "assistant" then some m else acc) none

lemma qmark_le_nonSep (s : String) : qmarkCount s ≤ nonSepCount s := by
  unfold qmarkCount nonSepCount
  have h1 : List.count '?' (s.data.filter (fun c => !sepChars.contains c))
      = List.count '?' s.data :=
    List.count_filter (by decide)
  rw [← h1]
  exact List.count_le_length _ _

lemma zero_lt_nonSep_of_qmark (s : String) (h : qmarkCount s ≠ 0) :
    0 < nonSepCount s :=
  lt_of_lt_of_le (Nat.pos_of_ne_zero h) (qmark_le_nonSep s)

/-- C7 (amended): `_looks_garbled_keyword` returns `true` iff the
whitespace-stripped keyword is non-empty and the ratio of `'?'` to
non-separator characters of the stripped keyword is at least 0.4.  In
particular the sentinel `"??,???"` is garbled, `"abc,??,d"` is not, and a
keyword containing no `'?'` is never garbled. -/
theorem looksGarbledKeyword_iff :
    (∀ s : String, looksGarbledKeyword s = true ↔ specGarbledStripped s) ∧
    looksGarbledKeyword "??,???" = true ∧
    looksGarbledKeyword "abc,??,d" = false ∧
    (∀ s : String, qmarkCount s = 0 → looksGarbledKeyword s = false) := by
  have key : ∀ s : String, looksGarbledKeyword s = true ↔ specGarbledStripped s := by
    intro s
    unfold looksGarbledKeyword specGarbledStripped
    by_cases h0 : pyStrip s = ""
    · simp [h0]
    · simp only [h0, if_false, ne_eq, not_false_iff, true_and]
      by_cases hq : qmarkCount (pyStrip s) = 0
      · simp only [hq, if_true]
        constructor
        · intro h; exact absurd h (by simp)
        · intro h
          simp only [Nat.cast_zero, zero_div] at h
          norm_num at h
      · have htot : nonSepCount (pyStrip s) ≠ 0 := by
          have := zero_lt_nonSep_of_qmark _ hq
          omega
        simp only [hq, if_false, htot, decide_eq_true_eq]
  refine ⟨key, by decide, by decide, ?_⟩
  intro s hq
  unfold looksGarbledKeyword
  by_cases h0 : pyStrip s = ""
  · simp [h0]
  · have hq' : qmarkCount (pyStrip s) = 0 := by
      have : qmarkCount (pyStrip s) ≤ qmarkCount s := by
        unfold qmarkCount pyStrip pyStripList
        simp only [String.data]
        calc ((s.data.dropWhile isPySpace).reverse.dropWhile isPySpace).reverse.count '?'
            = ((s.data.dropWhile isPySpace).reverse.dropWhile isPySpace).count '?' := by
              rw [List.count_reverse]
          _ ≤ (s.data.dropWhile isPySpace).reverse.count '?' :=
              List.Sublist.count_le (List.dropWhile_sublist _) '?'
          _ = (s.data.dropWhile isPySpace).count '?' := by rw [List.count_reverse]
          _ ≤ s.data.count '?' := List.Sublist.count_le (List.dropWhile_sublist _) '?'
      omega
    simp [h0, hq']

/-- C7 counterexample: on `"?" ++ three ideographic spaces (U+3000)` the
code strips the U+3000 characters (Python whitespace) and reports the
keyword garbled, while the claim's raw ratio is 1/4 < 0.4. -/
theorem looksGarbledKeyword_cex :
    looksGarbledKeyword "?　　　" = true ∧
      ¬ specGarbledRaw "?　　　" := by
  constructor
  · decide
  · intro h
    rcases h with ⟨_, hr⟩
    have hq : qmarkCount "?　　　" = 1 := by decide
    have ht : nonSepCount "?　　　" = 4 := by decide
    rw [hq, ht] at hr
    norm_num at hr

/-- Witness for the zero-`'?'` conjunct of `looksGarbledKeyword_iff`. -/
theorem looksGarbledKeyword_iff_witness :
    qmarkCount "abc" = 0 ∧ looksGarbledKeyword "abc" = false :=
  ⟨by decide, looksGarbledKeyword_iff.2.2.2 "abc" (by decide)⟩

/-! ## Claim C1: the score formula -/

lemma typeBoost_eq_spec (st : String) :
    typeBoost st = specTypeBoost (if st = "" then "unknown" else st) := by
  by_cases h0 : st = ""
  · subst h0; decide
  · rw [if_neg h0]
    unfold typeBoost specTypeBoost
    by_cases h1 : st = "current_input"
    · simp [h1]
    · by_cases h2 : st = "s4"
      · simp [h2]
      · by_cases h3 : st = "s60"
        · simp [h3]
        · by_cases h4 : st = "keyword"
          · simp [h1, h2, h3, h4]
          · by_cases h5 : st = "vector"
            · simp [h1, h2, h3, h4, h5]
            · simp [h1, h2, h3, h4, h5]

lemma recencyScore_eq_spec (now ts : ℕ) : recencyScore now ts = specRecency now ts := rfl

/-- C1: every record produced by the scoring loop of
`_score_and_rank_candidates` has
`score_final = round6(0.40·keyword + 0.40·vector + 0.10·recency + 0.10·type_boost)`,
where the `type_boost` and `recency` components follow the claim's fixed
tables (`specTypeBoost`, `specRecency`). -/
theorem scoreFinal_formula (now : ℕ) (cands : List Candidate) (e : EvidenceRec)
    (he : e ∈ scoredList now cands) :
    e.score_final = round6 ((2 : ℚ)/5 * e.rawKeyword + 2/5 * e.rawVector
      + 1/10 * e.rawRecency + 1/10 * e.rawTypeBoost) ∧
    e.rawTypeBoost = specTypeBoost e.source_type ∧
    e.rawRecency = specRecency now e.ts := by
  unfold scoredList at he
  rcases List.mem_map.mp he with ⟨⟨idx, c⟩, _, rfl⟩
  refine ⟨rfl, ?_, ?_⟩
  · show typeBoost c.source_type
      = specTypeBoost (if c.source_type = "" then "unknown" else c.source_type)
    exact typeBoost_eq_spec c.source_type
  · exact recencyScore_eq_spec now c.ts

/-- Witness for `scoreFinal_formula` at the concrete candidate `candW`. -/
theorem scoreFinal_formula_witness :
    scoreOne 1000 0 candW ∈ scoredList 1000 [candW] ∧
      ((scoreOne 1000 0 candW).score_final
          = round6 ((2 : ℚ)/5 * (scoreOne 1000 0 candW).rawKeyword
            + 2/5 * (scoreOne 1000 0 candW).rawVector
            + 1/10 * (scoreOne 1000 0 candW).rawRecency
            + 1/10 * (scoreOne 1000 0 candW).rawTypeBoost) ∧
        (scoreOne 1000 0 candW).rawTypeBoost
          = specTypeBoost (scoreOne 1000 0 candW).source_type ∧
        (scoreOne 1000 0 candW).rawRecency = specRecency 1000 (scoreOne 1000 0 candW).ts) :=
  ⟨by simp [scoredList, List.enum, List.enumFrom],
    scoreFinal_formula 1000 [candW] _ (by simp [scoredList, List.enum, List.enumFrom])⟩

/-! ## Claims C2 and C10: deduplication invariants -/

lemma mergeDuplicate_keep (k i : EvidenceRec) (h : ¬ k.score_final < i.score_final) :
    mergeDuplicate k i = { k with duplicates := k.duplicates ++ [dupPayload i] } := by
  unfold mergeDuplicate
  rw [if_neg h]

lemma evCore_mergeDuplicate (k i : EvidenceRec) (h : ¬ k.score_final < i.score_final) :
    evCore (mergeDuplicate k i) = evCore k := by
  rw [mergeDuplicate_keep k i h]
  rfl

lemma mergeDuplicate_text (k i : EvidenceRec) :
    (mergeDuplicate k i).text = k.text ∨ (mergeDuplicate k i).text = i.text := by
  unfold mergeDuplicate
  split
  · right; rfl
  · left; rfl

lemma evCore_eq_iff {a b : EvidenceRec} :
    evCore a = evCore b ↔
      a.source_id = b.source_id ∧ a.chunk_id = b.chunk_id ∧
        a.text = b.text ∧ a.score_final = b.score_final := by
  unfold evCore
  simp [Prod.ext_iff]

lemma sGe_congr {a a' b b' : EvidenceRec} (ha : evCore a = evCore a')
    (hb : evCore b = evCore b') : sGe a' b' → sGe a b := by
  unfold sGe
  rw [(evCore_eq_iff.mp ha).2.2.2, (evCore_eq_iff.mp hb).2.2.2]
  exact id

lemma keyNe_congr {a a' b b' : EvidenceRec} (ha : evCore a = evCore a')
    (hb : evCore b = evCore b') : keyNe a' b' → keyNe a b := by
  unfold keyNe sameKey
  rw [(evCore_eq_iff.mp ha).1, (evCore_eq_iff.mp hb).1,
    (evCore_eq_iff.mp ha).2.1, (evCore_eq_iff.mp hb).2.1]
  exact id

lemma jaccardSimilarity_comm (a b : Finset String) :
    jaccardSimilarity a b = jaccardSimilarity b a := by
  unfold jaccardSimilarity
  by_cases ha : a = ∅ <;> by_cases hb : b = ∅ <;>
    simp [ha, hb, Finset.inter_comm a b, Finset.union_comm a b]

lemma jaccardSimilarity_empty_left (b : Finset String) (hb : b ≠ ∅) :
    jaccardSimilarity ∅ b = 0 := by
  unfold jaccardSimilarity
  rw [if_neg (by simp [hb]), if_pos (Or.inl rfl)]

lemma jaccardSimilarity_empty_empty : jaccardSimilarity ∅ ∅ = 1 := by
  unfold jaccardSimilarity
  rw [if_pos ⟨rfl, rfl⟩]

lemma empty_iff_of_jaccard_gt {a b : Finset String}
    (h : (9 : ℚ)/10 < jaccardSimilarity a b) : (a = ∅ ↔ b = ∅) := by
  constructor
  · intro ha
    subst ha
    by_contra hb
    rw [jaccardSimilarity_empty_left b hb] at h
    norm_num at h
  · intro hb
    subst hb
    by_contra ha
    rw [jaccardSimilarity_comm, jaccardSimilarity_empty_left a ha] at h
    norm_num at h

lemma dedupeKeyInsert_inv (ev : EvidenceRec) (acc : List EvidenceRec)
    (hs : acc.Pairwise sGe) (hk : acc.Pairwise keyNe)
    (hdom : ∀ e ∈ acc, ev.score_final ≤ e.score_final) :
    (dedupeKeyInsert ev acc).Pairwise sGe ∧
    (dedupeKeyInsert ev acc).Pairwise keyNe ∧
    (∀ x ∈ dedupeKeyInsert ev acc,
      (∃ y ∈ acc, evCore x = evCore y) ∨ evCore x = evCore ev) := by
  induction acc with
  | nil =>
    refine ⟨?_, ?_, ?_⟩ <;> simp [dedupeKeyInsert]
  | cons e rest ih =>
    rw [List.pairwise_cons] at hs hk
    unfold dedupeKeyInsert
    by_cases hmatch : e.source_id = ev.source_id ∧ e.chunk_id = ev.chunk_id
    · rw [if_pos hmatch]
      have hle : ¬ e.score_final < ev.score_final :=
        not_lt.mpr (hdom e (by simp))
      have hcore : evCore (mergeDuplicate e ev) = evCore e :=
        evCore_mergeDuplicate e ev hle
      refine ⟨?_, ?_, ?_⟩
      · exact List.pairwise_cons.mpr
          ⟨fun b hb => sGe_congr hcore rfl (hs.1 b hb), hs.2⟩
      · exact List.pairwise_cons.mpr
          ⟨fun b hb => keyNe_congr hcore rfl (hk.1 b hb), hk.2⟩
      · intro x hx
        rcases List.mem_cons.mp hx with rfl | hx'
        · exact Or.inl ⟨e, by simp, hcore⟩
        · exact Or.inl ⟨x, by simp [hx'], rfl⟩
    · rw [if_neg hmatch]
      have hdom' : ∀ b ∈ rest, ev.score_final ≤ b.score_final :=
        fun b hb => hdom b (by simp [hb])
      obtain ⟨ihs, ihk, ihcore⟩ := ih hs.2 hk.2 hdom'
      refine ⟨?_, ?_, ?_⟩
      · refine List.pairwise_cons.mpr ⟨?_, ihs⟩
        intro b hb
        rcases ihcore b hb with ⟨y, hy, hcy⟩ | hcy
        · exact sGe_congr rfl hcy (hs.1 y hy)
        · exact sGe_congr rfl hcy (by unfold sGe; exact hdom e (by simp))
      · refine List.pairwise_cons.mpr ⟨?_, ihk⟩
        intro b hb
        rcases ihcore b hb with ⟨y, hy, hcy⟩ | hcy
        · exact keyNe_congr rfl hcy (hk.1 y hy)
        · exact keyNe_congr rfl hcy (by unfold keyNe sameKey; exact hmatch)
      · intro x hx
        rcases List.mem_cons.mp hx with rfl | hx'
        · exact Or.inl ⟨x, by simp, rfl⟩
        · rcases ihcore x hx' with ⟨y, hy, hcy⟩ | hcy
          · exact Or.inl ⟨y, by simp [hy], hcy⟩
          · exact Or.inr hcy

lemma dedupeByKey_go (l : List EvidenceRec) (acc : List EvidenceRec)
    (hl : l.Pairwise sGe) (hs : acc.Pairwise sGe) (hk : acc.Pairwise keyNe)
    (hdom : ∀ e ∈ acc, ∀ x ∈ l, x.score_final ≤ e.score_final) :
    (l.foldl (fun a ev => dedupeKeyInsert ev a) acc).Pairwise sGe ∧
    (l.foldl (fun a ev => dedupeKeyInsert ev a) acc).Pairwise keyNe := by
  induction l generalizing acc with
  | nil => exact ⟨hs, hk⟩
  | cons x xs ih =>
    rw [List.pairwise_cons] at hl
    simp only [List.foldl_cons]
    have hx : ∀ e ∈ acc, x.score_final ≤ e.score_final :=
      fun e he => hdom e he x (by simp)
    obtain ⟨h1, h2, h3⟩ := dedupeKeyInsert_inv x acc hs hk hx
    refine ih _ hl.2 h1 h2 ?_
    intro e he y hy
    rcases h3 e he with ⟨z, hz, hcz⟩ | hcz
    · have := hdom z hz y (by simp [hy])
      rw [(evCore_eq_iff.mp hcz).2.2.2]
      exact this
    · rw [(evCore_eq_iff.mp hcz).2.2.2]
      exact hl.1 y hy

lemma dedupeByKey_inv (l : List EvidenceRec) (hl : l.Pairwise sGe) :
    (dedupeByKey l).Pairwise sGe ∧ (dedupeByKey l).Pairwise keyNe := by
  unfold dedupeByKey
  exact dedupeByKey_go l [] hl (by simp) (by simp) (by simp)

lemma pairwise_imp_mem {α : Type _} {R S : α → α → Prop} {l : List α}
    (h : ∀ a ∈ l, ∀ b ∈ l, R a b → S a b) : l.Pairwise R → l.Pairwise S := by
  induction l with
  | nil => intro; exact List.Pairwise.nil
  | cons x xs ih =>
    intro hp
    rw [List.pairwise_cons] at hp ⊢
    refine ⟨fun b hb => h x (by simp) b (by simp [hb]) (hp.1 b hb), ?_⟩
    exact ih (fun a ha b hb => h a (by simp [ha]) b (by simp [hb])) hp.2

lemma dedupeTextInsert_tok (ev : EvidenceRec) (cur : Finset String)
    (hcur : cur = tokenizeForJaccard ev.text)
    (acc : List (EvidenceRec × Finset String))
    (htok : ∀ p ∈ acc, p.2 = tokenizeForJaccard p.1.text) :
    ∀ p ∈ dedupeTextInsert ev cur acc, p.2 = tokenizeForJaccard p.1.text := by
  induction acc with
  | nil =>
    intro p hp
    simp only [dedupeTextInsert, List.mem_singleton] at hp
    subst hp
    exact hcur
  | cons q rest ih =>
    obtain ⟨e, ts⟩ := q
    intro p hp
    unfold dedupeTextInsert at hp
    by_cases hmatch : (9 : ℚ)/10 < jaccardSimilarity cur ts
    · rw [if_pos hmatch] at hp
      rcases List.mem_cons.mp hp with rfl | hp'
      · rfl
      · exact htok p (by simp [hp'])
    · rw [if_neg hmatch] at hp
      rcases List.mem_cons.mp hp with hpe | hp'
      · rw [hpe]
        exact htok (e, ts) (by simp)
      · exact ih (fun r hr => htok r (by simp [hr])) p hp'

lemma dedupeTextInsert_inv (ev : EvidenceRec) (cur : Finset String)
    (hcur : cur = tokenizeForJaccard ev.text)
    (acc : List (EvidenceRec × Finset String))
    (htok : ∀ p ∈ acc, p.2 = tokenizeForJaccard p.1.text)
    (hjac : acc.Pairwise (fun p q => jaccardSimilarity p.2 q.2 ≤ 9/10))
    (hkey : acc.Pairwise (fun p q => keyNe p.1 q.1))
    (hdom : ∀ p ∈ acc, ev.score_final ≤ p.1.score_final)
    (hkne : ∀ p ∈ acc, keyNe p.1 ev) :
    (dedupeTextInsert ev cur acc).Pairwise (fun p q => jaccardSimilarity p.2 q.2 ≤ 9/10) ∧
    (dedupeTextInsert ev cur acc).Pairwise (fun p q => keyNe p.1 q.1) ∧
    (∀ p ∈ dedupeTextInsert ev cur acc,
      (∃ q ∈ acc, evCore p.1 = evCore q.1 ∧ p.2 = q.2) ∨
        (evCore p.1 = evCore ev ∧ p.2 = cur)) := by
  induction acc with
  | nil =>
    refine ⟨by simp [dedupeTextInsert], by simp [dedupeTextInsert], ?_⟩
    intro p hp
    simp only [dedupeTextInsert, List.mem_singleton] at hp
    subst hp
    exact Or.inr ⟨rfl, rfl⟩
  | cons q rest ih =>
    obtain ⟨e, ts⟩ := q
    rw [List.pairwise_cons] at hjac hkey
    have hts : ts = tokenizeForJaccard e.text := htok (e, ts) (by simp)
    unfold dedupeTextInsert
    by_cases hmatch : (9 : ℚ)/10 < jaccardSimilarity cur ts
    · rw [if_pos hmatch]
      have hle : ¬ e.score_final < ev.score_final :=
        not_lt.mpr (hdom (e, ts) (by simp))
      have hcore : evCore (mergeDuplicate e ev) = evCore e :=
        evCore_mergeDuplicate e ev hle
      have htext : (mergeDuplicate e ev).text = e.text :=
        (evCore_eq_iff.mp hcore).2.2.1
      have htok2 : tokenizeForJaccard (mergeDuplicate e ev).text = ts := by
        rw [htext, hts]
      refine ⟨?_, ?_, ?_⟩
      · refine List.pairwise_cons.mpr ⟨?_, hjac.2⟩
        intro r hr
        simpa only [htok2] using hjac.1 r hr
      · refine List.pairwise_cons.mpr ⟨?_, hkey.2⟩
        intro r hr
        exact keyNe_congr hcore rfl (hkey.1 r hr)
      · intro p hp
        rcases List.mem_cons.mp hp with rfl | hp'
        · exact Or.inl ⟨(e, ts), by simp, hcore, htok2⟩
        · exact Or.inl ⟨p, by simp [hp'], rfl, rfl⟩
    · rw [if_neg hmatch]
      have htokr : ∀ p ∈ rest, p.2 = tokenizeForJaccard p.1.text :=
        fun p hp => htok p (by simp [hp])
      have hdomr : ∀ p ∈ rest, ev.score_final ≤ p.1.score_final :=
        fun p hp => hdom p (by simp [hp])
      have hkner : ∀ p ∈ rest, keyNe p.1 ev :=
        fun p hp => hkne p (by simp [hp])
      obtain ⟨ihjac, ihkey, ihcore⟩ := ih htokr hjac.2 hkey.2 hdomr hkner
      refine ⟨?_, ?_, ?_⟩
      · refine List.pairwise_cons.mpr ⟨?_, ihjac⟩
        intro r hr
        rcases ihcore r hr with ⟨q, hq, _, hsnd⟩ | ⟨_, hsnd⟩
        · rw [hsnd]
          exact hjac.1 q hq
        · rw [hsnd]
          rw [jaccardSimilarity_comm]
          exact not_lt.mp hmatch
      · refine List.pairwise_cons.mpr ⟨?_, ihkey⟩
        intro r hr
        rcases ihcore r hr with ⟨q, hq, hcq, _⟩ | ⟨hcq, _⟩
        · exact keyNe_congr rfl hcq (hkey.1 q hq)
        · exact keyNe_congr rfl hcq (hkne (e, ts) (by simp))
      · intro p hp
        rcases List.mem_cons.mp hp with hpe | hp'
        · rw [hpe]
          exact Or.inl ⟨(e, ts), by simp, rfl, rfl⟩
        · rcases ihcore p hp' with ⟨q, hq, hcq, hsnd⟩ | hcq
          · exact Or.inl ⟨q, by simp [hq], hcq, hsnd⟩
          · exact Or.inr hcq

lemma dedupeByText_go (l : List EvidenceRec) (acc : List (EvidenceRec × Finset String))
    (hl : l.Pairwise sGe) (hlk : l.Pairwise keyNe)
    (htok : ∀ p ∈ acc, p.2 = tokenizeForJaccard p.1.text)
    (hjac : acc.Pairwise (fun p q => jaccardSimilarity p.2 q.2 ≤ 9/10))
    (hkey : acc.Pairwise (fun p q => keyNe p.1 q.1))
    (hdom : ∀ p ∈ acc, ∀ x ∈ l, x.score_final ≤ p.1.score_final)
    (hkne : ∀ p ∈ acc, ∀ x ∈ l, keyNe p.1 x) :
    (∀ p ∈ l.foldl (fun a ev => dedupeTextInsert ev (tokenizeForJaccard ev.text) a) acc,
      p.2 = tokenizeForJaccard p.1.text) ∧
    (l.foldl (fun a ev => dedupeTextInsert ev (tokenizeForJaccard ev.text) a) acc).Pairwise
      (fun p q => jaccardSimilarity p.2 q.2 ≤ 9/10) ∧
    (l.foldl (fun a ev => dedupeTextInsert ev (tokenizeForJaccard ev.text) a) acc).Pairwise
      (fun p q => keyNe p.1 q.1) := by
  induction l generalizing acc with
  | nil => exact ⟨htok, hjac, hkey⟩
  | cons x xs ih =>
    rw [List.pairwise_cons] at hl hlk
    simp only [List.foldl_cons]
    have hdomx : ∀ p ∈ acc, x.score_final ≤ p.1.score_final :=
      fun p hp => hdom p hp x (by simp)
    have hknex : ∀ p ∈ acc, keyNe p.1 x :=
      fun p hp => hkne p hp x (by simp)
    have htok' := dedupeTextInsert_tok x (tokenizeForJaccard x.text) rfl acc htok
    obtain ⟨hjac', hkey', hcore'⟩ :=
      dedupeTextInsert_inv x (tokenizeForJaccard x.text) rfl acc htok hjac hkey hdomx hknex
    refine ih _ hl.2 hlk.2 htok' hjac' hkey' ?_ ?_
    · intro p hp y hy
      rcases hcore' p hp with ⟨q, hq, hcq, _⟩ | ⟨hcq, _⟩
      · rw [(evCore_eq_iff.mp hcq).2.2.2]
        exact hdom q hq y (by simp [hy])
      · rw [(evCore_eq_iff.mp hcq).2.2.2]
        exact hl.1 y hy
    · intro p hp y hy
      rcases hcore' p hp with ⟨q, hq, hcq, _⟩ | ⟨hcq, _⟩
      · exact keyNe_congr hcq rfl (hkne q hq y (by simp [hy]))
      · exact keyNe_congr hcq rfl (hlk.1 y hy)

lemma dedupeByText_inv (l : List EvidenceRec)
    (hl : l.Pairwise sGe) (hlk : l.Pairwise keyNe) :
    (∀ p ∈ dedupeByText l, p.2 = tokenizeForJaccard p.1.text) ∧
    (dedupeByText l).Pairwise (fun p q => jaccardSimilarity p.2 q.2 ≤ 9/10) ∧
    (dedupeByText l).Pairwise (fun p q => keyNe p.1 q.1) := by
  unfold dedupeByText
  exact dedupeByText_go l [] hl hlk (by simp) (by simp) (by simp) (by simp) (by simp)

lemma dedupOk_symm : ∀ {a b : EvidenceRec}, dedupOk a b → dedupOk b a := by
  intro a b h
  obtain ⟨h1, h2⟩ := h
  refine ⟨fun hs => h1 ⟨hs.1.symm, hs.2.symm⟩, ?_⟩
  rw [jaccardSimilarity_comm]
  exact h2

lemma postprocess_pairwise (scored : List EvidenceRec) (top_n : ℕ)
    (hl : scored.Pairwise sGe) :
    (postprocessCandidates scored top_n).Pairwise dedupOk := by
  obtain ⟨h1, h2⟩ := dedupeByKey_inv scored hl
  obtain ⟨htok, hjac, hkey⟩ := dedupeByText_inv (dedupeByKey scored) h1 h2
  have hmap : ((dedupeByText (dedupeByKey scored)).map Prod.fst).Pairwise dedupOk := by
    rw [List.pairwise_map]
    have hcomb : (dedupeByText (dedupeByKey scored)).Pairwise
        (fun p q => keyNe p.1 q.1 ∧ jaccardSimilarity p.2 q.2 ≤ 9/10) :=
      List.Pairwise.and hkey hjac
    refine pairwise_imp_mem ?_ hcomb
    intro p hp q hq hpq
    refine ⟨hpq.1, ?_⟩
    rw [← htok p hp, ← htok q hq]
    exact hpq.2
  have hperm :=
    List.mergeSort_perm ((dedupeByText (dedupeByKey scored)).map Prod.fst) scoreGE
  have hsorted := hmap.perm hperm.symm (fun h => dedupOk_symm h)
  unfold postprocessCandidates
  exact List.Pairwise.sublist (List.take_sublist _ _) hsorted

lemma rankKeyGE_trans : ∀ a b c : EvidenceRec,
    rankKeyGE a b = true → rankKeyGE b c = true → rankKeyGE a c = true := by
  intro a b c hab hbc
  simp only [rankKeyGE, decide_eq_true_eq] at hab hbc ⊢
  rcases hab with h1 | ⟨e1, h1⟩ <;> rcases hbc with h2 | ⟨e2, h2⟩
  · exact Or.inl (h2.trans h1)
  · exact Or.inl (e2 ▸ h1)
  · exact Or.inl (lt_of_lt_of_eq h2 e1.symm)
  · right
    refine ⟨e1.trans e2, ?_⟩
    rcases h1 with p1 | ⟨pe1, r1⟩ <;> rcases h2 with p2 | ⟨pe2, r2⟩
    · exact Or.inl (p2.trans p1)
    · exact Or.inl (pe2 ▸ p1)
    · exact Or.inl (lt_of_lt_of_eq p2 pe1.symm)
    · exact Or.inr ⟨pe1.trans pe2, r2.trans r1⟩

lemma rankKeyGE_total : ∀ a b : EvidenceRec,
    (rankKeyGE a b || rankKeyGE b a) = true := by
  intro a b
  rw [Bool.or_eq_true]
  simp only [rankKeyGE, decide_eq_true_eq]
  rcases lt_trichotomy a.score_final b.score_final with h | h | h
  · exact Or.inr (Or.inl h)
  · rcases lt_trichotomy a.source_priority b.source_priority with hp | hp | hp
    · exact Or.inr (Or.inr ⟨h.symm, Or.inl hp⟩)
    · rcases le_total b.rawRecency a.rawRecency with hr | hr
      · exact Or.inl (Or.inr ⟨h, Or.inr ⟨hp, hr⟩⟩)
      · exact Or.inr (Or.inr ⟨h.symm, Or.inr ⟨hp.symm, hr⟩⟩)
    · exact Or.inl (Or.inr ⟨h, Or.inl hp⟩)
  · exact Or.inl (Or.inl h)

/-- C2: the output of `_score_and_rank_candidates` (scoring, ranking and
two-stage postprocessing) contains no two records sharing
`(source_id, chunk_id)` and no two records whose token sets have Jaccard
similarity above 0.9. -/
theorem dedup_completeness (now : ℕ) (cands : List Candidate) (top_n : ℕ) :
    (scoreAndRankCandidates now cands top_n).Pairwise dedupOk := by
  unfold scoreAndRankCandidates
  apply postprocess_pairwise
  have hs := List.sorted_mergeSort rankKeyGE_trans rankKeyGE_total
    (scoredList now cands)
  refine hs.imp ?_
  intro a b h
  simp only [rankKeyGE, decide_eq_true_eq] at h
  rcases h with h | ⟨h, _⟩
  · exact le_of_lt h
  · exact le_of_eq h.symm

set_option maxHeartbeats 1000000 in
lemma dedupeTextInsert_count (ev : EvidenceRec) (cur : Finset String)
    (hcur : cur = tokenizeForJaccard ev.text)
    (acc : List (EvidenceRec × Finset String))
    (htok : ∀ p ∈ acc, p.2 = tokenizeForJaccard p.1.text) :
    (cur ≠ ∅ →
      (dedupeTextInsert ev cur acc).countP (fun p => decide (p.2 = ∅))
        ≤ acc.countP (fun p => decide (p.2 = ∅))) ∧
    (dedupeTextInsert ev cur acc).countP (fun p => decide (p.2 = ∅))
      ≤ max 1 (acc.countP (fun p => decide (p.2 = ∅))) := by
  induction acc with
  | nil =>
    constructor
    · intro hne
      simp [dedupeTextInsert, List.countP_cons, hne]
    · simp [dedupeTextInsert, List.countP_cons]
      split <;> simp
  | cons q rest ih =>
    obtain ⟨e, ts⟩ := q
    have hts : ts = tokenizeForJaccard e.text := htok (e, ts) (by simp)
    unfold dedupeTextInsert
    by_cases hmatch : (9 : ℚ)/10 < jaccardSimilarity cur ts
    · rw [if_pos hmatch]
      have hiff : (tokenizeForJaccard (mergeDuplicate e ev).text = ∅) ↔ (ts = ∅) := by
        rcases mergeDuplicate_text e ev with h | h
        · rw [h, ← hts]
        · rw [h, ← hcur]
          exact empty_iff_of_jaccard_gt hmatch
      have hdec : decide (tokenizeForJaccard (mergeDuplicate e ev).text = ∅)
          = decide (ts = ∅) := decide_eq_decide.mpr hiff
      have hcount : ((mergeDuplicate e ev, tokenizeForJaccard (mergeDuplicate e ev).text)
            :: rest).countP (fun p => decide (p.2 = ∅))
          = ((e, ts) :: rest).countP (fun p => decide (p.2 = ∅)) := by
        simp only [List.countP_cons, hdec]
      constructor
      · intro _
        rw [hcount]
      · rw [hcount]
        exact le_max_right _ _
    · rw [if_neg hmatch]
      have htokr : ∀ p ∈ rest, p.2 = tokenizeForJaccard p.1.text :=
        fun p hp => htok p (by simp [hp])
      obtain ⟨ih1, ih2⟩ := ih htokr
      rw [List.countP_cons, List.countP_cons]
      by_cases hts0 : ts = ∅
      · have hcurne : cur ≠ ∅ := by
          intro hc
          rw [hc, hts0, jaccardSimilarity_empty_empty] at hmatch
          norm_num at hmatch
        have hle := ih1 hcurne
        have hite : (if decide (ts = ∅) = true then 1 else 0) = 1 := by
          rw [decide_eq_true hts0]
          simp
        rw [hite]
        constructor
        · intro _
          omega
        · omega
      · have hite : (if decide (ts = ∅) = true then 1 else 0) = 0 := by
          rw [decide_eq_false hts0]
          simp
        rw [hite]
        constructor
        · intro hne
          have := ih1 hne
          omega
        · omega

lemma dedupeByText_count_go (l : List EvidenceRec)
    (acc : List (EvidenceRec × Finset String))
    (htok : ∀ p ∈ acc, p.2 = tokenizeForJaccard p.1.text)
    (hcount : acc.countP (fun p => decide (p.2 = ∅)) ≤ 1) :
    (l.foldl (fun a ev => dedupeTextInsert ev (tokenizeForJaccard ev.text) a)
      acc).countP (fun p => decide (p.2 = ∅)) ≤ 1 := by
  induction l generalizing acc with
  | nil => exact hcount
  | cons x xs ih =>
    simp only [List.foldl_cons]
    have htok' := dedupeTextInsert_tok x (tokenizeForJaccard x.text) rfl acc htok
    have hc := (dedupeTextInsert_count x (tokenizeForJaccard x.text) rfl acc htok).2
    refine ih _ htok' ?_
    omega

lemma dedupeByText_go_tok (l : List EvidenceRec)
    (acc : List (EvidenceRec × Finset String))
    (htok : ∀ p ∈ acc, p.2 = tokenizeForJaccard p.1.text) :
    ∀ p ∈ l.foldl (fun a ev => dedupeTextInsert ev (tokenizeForJaccard ev.text) a) acc,
      p.2 = tokenizeForJaccard p.1.text := by
  induction l generalizing acc with
  | nil => exact htok
  | cons x xs ih =>
    simp only [List.foldl_cons]
    exact ih _ (dedupeTextInsert_tok x (tokenizeForJaccard x.text) rfl acc htok)

/-- C10: two empty token sets have Jaccard similarity 1.0 (so empty-text
records merge with each other), and consequently at most one record
surviving `_postprocess_candidates` has a text that tokenizes to the
empty set. -/
theorem jaccard_empty_unique :
    jaccardSimilarity ∅ ∅ = 1 ∧
    ∀ (scored : List EvidenceRec) (top_n : ℕ),
      (postprocessCandidates scored top_n).countP
        (fun e => decide (tokenizeForJaccard e.text = ∅)) ≤ 1 := by
  refine ⟨jaccardSimilarity_empty_empty, ?_⟩
  intro scored top_n
  unfold postprocessCandidates
  have htok2 : ∀ p ∈ dedupeByText (dedupeByKey scored),
      p.2 = tokenizeForJaccard p.1.text := by
    unfold dedupeByText
    exact dedupeByText_go_tok (dedupeByKey scored) [] (by simp)
  have hcnt : (dedupeByText (dedupeByKey scored)).countP
      (fun p => decide (p.2 = ∅)) ≤ 1 := by
    unfold dedupeByText
    exact dedupeByText_count_go (dedupeByKey scored) [] (by simp) (by simp)
  have h1 : ((dedupeByText (dedupeByKey scored)).map Prod.fst).countP
      (fun e => decide (tokenizeForJaccard e.text = ∅)) ≤ 1 := by
    rw [List.countP_map]
    have heq : List.countP
        ((fun e => decide (tokenizeForJaccard e.text = ∅)) ∘ Prod.fst)
        (dedupeByText (dedupeByKey scored))
        = List.countP (fun p => decide (p.2 = ∅))
          (dedupeByText (dedupeByKey scored)) := by
      apply List.countP_congr
      intro p hp
      simp only [Function.comp_apply]
      rw [htok2 p hp]
    rw [heq]
    exact hcnt
  have hperm := List.mergeSort_perm
    ((dedupeByText (dedupeByKey scored)).map Prod.fst) scoreGE
  have h2 : (((dedupeByText (dedupeByKey scored)).map Prod.fst).mergeSort
      scoreGE).countP (fun e => decide (tokenizeForJaccard e.text = ∅)) ≤ 1 := by
    rw [List.Perm.countP_eq _ hperm]
    exact h1
  exact le_trans (List.Sublist.countP_le _ (List.take_sublist _ _)) h2

/-! ## Claim C5: mojibake non-regression -/

lemma stripCtrl_eq_self {l : List Char} (h : l.countP isC1Ctrl = 0) : stripCtrl l = l := by
  unfold stripCtrl
  apply List.filter_eq_self.mpr
  intro c hc
  have h2 := List.countP_eq_zero.mp h c hc
  simp only [Bool.not_eq_true] at h2 ⊢
  simp [h2]

lemma charMojibakeScore_expand (l : List Char) :
    charMojibakeScore l
      = l.count 'Ã' + l.count 'Â' + l.count 'æ' + l.count 'ä' + l.count 'å'
        + l.count 'ç' + l.count 'ð' + l.count '\u0085' + l.count '\u009d'
        + l.count '\u009f' := by
  unfold charMojibakeScore mojibakeMarkers
  simp only [List.foldl_cons, List.foldl_nil]
  omega

/-- C5: a text with no mojibake markers and no C1 control characters is
returned unchanged by `_maybe_repair_mojibake_text`. -/
theorem mojibake_nonregression (t : String) (h1 : mojibakeScore t = 0)
    (h2 : ctrlCharCount t = 0) : maybeRepairMojibakeText t = t := by
  have hstrip : stripCtrl t.data = t.data := stripCtrl_eq_self h2
  have hmk : String.mk (stripCtrl t.data) = t := by
    rw [hstrip]
  unfold maybeRepairMojibakeText
  by_cases h0 : t = ""
  · simp [h0]
  · rw [if_neg h0]
    have hlooks : ¬ (looksMojibakeText t = true) := by
      unfold looksMojibakeText
      simp [h1, h2]
    by_cases hcjk : 2 ≤ countCjkChars t ∧ ¬ (badMarkers7.any (fun m => t.data.contains m))
    · rw [if_pos hcjk]
      exact hmk
    · rw [if_neg hcjk]
      simp only [hlooks, not_false_iff, if_true]
      exact hmk

/-- Witness for `mojibake_nonregression` at a clean concrete string. -/
theorem mojibake_nonregression_witness :
    mojibakeScore "hello 世界" = 0 ∧ ctrlCharCount "hello 世界" = 0 ∧
      maybeRepairMojibakeText "hello 世界" = "hello 世界" :=
  ⟨by decide, by decide, mojibake_nonregression "hello 世界" (by decide) (by decide)⟩

/-! ## Claim C9: the banned-phrase scrub can splice a banned phrase -/

/-- C9 (code bug): with an empty transcript (no help-seeking cue) and the
LLM goal `寻求经济求助对方帮助` — which contains no banned phrase other
than `求助对方` — removing `求助对方` splices the banned phrase
`寻求经济帮助` into the returned goal, contradicting both the claim and
the function's own docstring. -/
theorem sanitizeSummary_splice_bug :
    hasHelpSeeking "" = false ∧
    containsSub "寻求经济求助对方帮助" "寻求经济帮助" = false ∧
    (sanitizeSummary "" (some summaryC9In)).goal = "寻求经济帮助" ∧
    containsSub (sanitizeSummary "" (some summaryC9In)).goal "寻求经济帮助" = true := by
  refine ⟨by decide, by decide, by decide, by decide⟩

/-! ## Claim C6: tool-thread sanitization -/

lemma lastAssistant_append (l : List ChatMsg) (m : ChatMsg) :
    lastAssistant (l ++ [m])
      = if m.role = "assistant" then some m else lastAssistant l := by
  unfold lastAssistant
  rw [List.foldl_append]
  rfl

lemma okWeakFrom_nil (last : Option ChatMsg) : toolThreadOkWeakFrom last [] = true := rfl

lemma okWeakFrom_cons (last : Option ChatMsg) (m : ChatMsg) (rest : List ChatMsg) :
    toolThreadOkWeakFrom last (m :: rest)
      = (if m.role = "tool" then
          (match last with
           | none => false
           | some a =>
             match a.tool_calls with
             | none => true
             | some tc => decide (pyStrip m.tool_call_id ∈ collectCallIds tc)) &&
            toolThreadOkWeakFrom last rest
        else if m.role = "assistant" then toolThreadOkWeakFrom (some m) rest
        else toolThreadOkWeakFrom last rest) := rfl

lemma okWeakFrom_append (l1 l2 : List ChatMsg) : ∀ last : Option ChatMsg,
    toolThreadOkWeakFrom last (l1 ++ l2)
      = (toolThreadOkWeakFrom last l1 &&
          toolThreadOkWeakFrom
            (l1.foldl (fun acc m => if m.role = "assistant" then some m else acc) last) l2) := by
  induction l1 with
  | nil =>
    intro last
    simp [okWeakFrom_nil]
  | cons m rest ih =>
    intro last
    simp only [List.cons_append, List.foldl_cons]
    simp only [okWeakFrom_cons]
    by_cases h1 : m.role = "tool"
    · rw [if_pos h1, if_pos h1]
      have hna : ¬ (m.role = "assistant") := by rw [h1]; decide
      rw [ih, if_neg hna, Bool.and_assoc]
    · rw [if_neg h1, if_neg h1]
      by_cases h2 : m.role = "assistant"
      · rw [if_pos h2, if_pos h2, ih, if_pos h2]
      · rw [if_neg h2, if_neg h2, ih, if_neg h2]

lemma okWeakFrom_no_assistant (a : ChatMsg) (ha : a.tool_calls = none)
    (l : List ChatMsg) (hl : ∀ x ∈ l, ¬ x.role = "assistant") :
    toolThreadOkWeakFrom (some a) l = true := by
  induction l with
  | nil => rfl
  | cons m rest ih =>
    have ih' := ih (fun x hx => hl x (by simp [hx]))
    simp only [okWeakFrom_cons]
    by_cases h1 : m.role = "tool"
    · rw [if_pos h1]
      simp only [ha]
      rw [Bool.true_and]
      exact ih'
    · rw [if_neg h1, if_neg (hl m (by simp))]
      exact ih'

lemma okWeakFrom_strip (l : List ChatMsg) : ∀ last : Option ChatMsg,
    toolThreadOkWeakFrom last l = true →
    toolThreadOkWeakFrom last (stripLastAssistantToolFields l) = true := by
  induction l with
  | nil => intro last h; exact h
  | cons m rest ih =>
    intro last h
    unfold stripLastAssistantToolFields
    by_cases hany : rest.any (fun x => decide (x.role = "assistant")) = true
    · rw [if_pos hany]
      simp only [okWeakFrom_cons] at h ⊢
      by_cases h1 : m.role = "tool"
      · rw [if_pos h1] at h ⊢
        rw [Bool.and_eq_true] at h ⊢
        exact ⟨h.1, ih last h.2⟩
      · rw [if_neg h1] at h ⊢
        by_cases h2 : m.role = "assistant"
        · rw [if_pos h2] at h ⊢
          exact ih (some m) h
        · rw [if_neg h2] at h ⊢
          exact ih last h
    · rw [if_neg hany]
      have hnone : ∀ x ∈ rest, ¬ x.role = "assistant" := by
        intro x hx hxa
        exact hany (List.any_eq_true.mpr ⟨x, hx, by simp [hxa]⟩)
      by_cases h2 : m.role = "assistant"
      · rw [if_pos h2]
        simp only [okWeakFrom_cons]
        have hr1 : ¬ (({ m with tool_calls := none, function_call := none } : ChatMsg).role
            = "tool") := by
          show ¬ (m.role = "tool")
          rw [h2]; decide
        have hr2 : ({ m with tool_calls := none, function_call := none } : ChatMsg).role
            = "assistant" := h2
        rw [if_neg hr1, if_pos hr2]
        exact okWeakFrom_no_assistant _ rfl rest hnone
      · rw [if_neg h2]
        simp only [okWeakFrom_cons] at h ⊢
        by_cases h1 : m.role = "tool"
        · rw [if_pos h1] at h ⊢
          rw [Bool.and_eq_true] at h ⊢
          exact ⟨h.1, ih last h.2⟩
        · rw [if_neg h1, if_neg h2] at h ⊢
          exact ih last h

lemma mem_dedupKeepFirstAux [DecidableEq α] (l : List α) :
    ∀ (seen : List α) (x : α), x ∈ dedupKeepFirstAux seen l → x ∈ l := by
  induction l with
  | nil => intro seen x hx; exact absurd hx (by simp [dedupKeepFirstAux])
  | cons a rest ih =>
    intro seen x hx
    unfold dedupKeepFirstAux at hx
    by_cases ha : a ∈ seen
    · rw [if_pos ha] at hx
      exact List.mem_cons.mpr (Or.inr (ih seen x hx))
    · rw [if_neg ha] at hx
      rcases List.mem_cons.mp hx with rfl | hx'
      · exact List.mem_cons.mpr (Or.inl rfl)
      · exact List.mem_cons.mpr (Or.inr (ih (a :: seen) x hx'))

lemma mem_dedupKeepFirst [DecidableEq α] (l : List α) (x : α)
    (hx : x ∈ dedupKeepFirst l) : x ∈ l :=
  mem_dedupKeepFirstAux l [] x hx

lemma sanitizeLoop_okWeak (msgs : List ChatMsg) :
    ∀ (cleaned : List ChatMsg) (pending : List String),
    toolThreadOkWeak cleaned = true →
    (pending ≠ [] →
      ∃ a tc, lastAssistant cleaned = some a ∧ a.tool_calls = some tc ∧
        ∀ x ∈ pending, x ∈ collectCallIds tc) →
    toolThreadOkWeak (sanitizeLoop cleaned msgs pending) = true := by
  induction msgs with
  | nil =>
    intro cleaned pending hok hinv
    unfold sanitizeLoop
    by_cases hp : pending ≠ []
    · rw [if_pos hp]
      exact okWeakFrom_strip cleaned none hok
    · rw [if_neg hp]
      exact hok
  | cons m rest ih =>
    intro cleaned pending hok hinv
    unfold sanitizeLoop
    by_cases h1 : m.role = "tool"
    · rw [if_pos h1]
      by_cases h2 : pyStrip m.tool_call_id ≠ "" ∧ pyStrip m.tool_call_id ∈ pending
      · rw [if_pos h2]
        have hpne : pending ≠ [] := by
          intro he
          rw [he] at h2
          exact absurd h2.2 (by simp)
        obtain ⟨a, tc, hla, htc, hsub⟩ := hinv hpne
        apply ih
        · unfold toolThreadOkWeak
          rw [okWeakFrom_append, Bool.and_eq_true]
          refine ⟨hok, ?_⟩
          show toolThreadOkWeakFrom (lastAssistant cleaned) [m] = true
          rw [hla]
          simp only [okWeakFrom_cons]
          rw [if_pos h1]
          simp only [htc]
          rw [Bool.and_eq_true]
          exact ⟨decide_eq_true (hsub _ h2.2), rfl⟩
        · intro hne
          refine ⟨a, tc, ?_, htc, ?_⟩
          · rw [lastAssistant_append]
            have : ¬ (m.role = "assistant") := by rw [h1]; decide
            rw [if_neg this]
            exact hla
          · intro x hx
            exact hsub x (List.mem_of_mem_erase hx)
      · rw [if_neg h2]
        exact ih cleaned pending hok hinv
    · rw [if_neg h1]
      have hok2 : toolThreadOkWeak
          (if pending ≠ [] then stripLastAssistantToolFields cleaned else cleaned) = true := by
        by_cases hp : pending ≠ []
        · rw [if_pos hp]
          exact okWeakFrom_strip cleaned none hok
        · rw [if_neg hp]
          exact hok
      have happ : ∀ m2 : ChatMsg, ¬ (m2.role = "tool") →
          toolThreadOkWeak
            ((if pending ≠ [] then stripLastAssistantToolFields cleaned else cleaned) ++ [m2])
              = true := by
        intro m2 hm2
        unfold toolThreadOkWeak
        rw [okWeakFrom_append, Bool.and_eq_true]
        refine ⟨hok2, ?_⟩
        simp only [okWeakFrom_cons]
        rw [if_neg hm2]
        by_cases h6 : m2.role = "assistant"
        · rw [if_pos h6]
          rfl
        · rw [if_neg h6]
          rfl
      by_cases h3 : m.role = "assistant" ∧ m.tool_calls ≠ none
      · rw [if_pos h3]
        obtain ⟨tc, htc⟩ : ∃ tc, m.tool_calls = some tc := by
          cases hc : m.tool_calls with
          | none => exact absurd hc h3.2
          | some tc => exact ⟨tc, rfl⟩
        apply ih
        · exact happ m h1
        · intro _
          refine ⟨m, tc, ?_, htc, ?_⟩
          · rw [lastAssistant_append, if_pos h3.1]
          · intro x hx
            have hgd : m.tool_calls.getD [] = tc := by rw [htc]; rfl
            rw [hgd] at hx
            exact mem_dedupKeepFirst _ x hx
      · rw [if_neg h3]
        by_cases h4 : m.role = "assistant" ∧ m.function_call ≠ none
        · rw [if_pos h4]
          cases hc : m.content with
          | none =>
            simp only [hc]
            exact ih _ [] hok2 (by intro h; exact absurd rfl h)
          | some c =>
            simp only [hc]
            by_cases h5 : pyStrip c = ""
            · rw [if_pos h5]
              exact ih _ [] hok2 (by intro h; exact absurd rfl h)
            · rw [if_neg h5]
              exact ih _ [] (happ m h1) (by intro h; exact absurd rfl h)
        · rw [if_neg h4]
          exact ih _ [] (happ m h1) (by intro h; exact absurd rfl h)

/-- C6 (amended): after `_sanitize_messages_for_upstream` (the path taken
when the request carries no `tools`/`functions`), every surviving `tool`
message follows some assistant message, and whenever the nearest
preceding assistant message still carries a `tool_calls` field the tool
message's `tool_call_id` occurs in it.  (A tool message may survive with
its matching assistant's `tool_calls` stripped, when that assistant's
calls were only partially answered.) -/
theorem sanitize_toolThread_weak (msgs : List ChatMsg) :
    toolThreadOkWeak (sanitizeMessagesForUpstream msgs) = true := by
  unfold sanitizeMessagesForUpstream
  exact sanitizeLoop_okWeak msgs [] [] rfl (by intro h; exact absurd rfl h)

/-- C6 counterexample: an assistant with tool calls `a`, `b` followed by
a tool response for `a` only.  The sanitizer keeps the tool message but
strips the assistant's `tool_calls`, so the surviving tool message has no
matching entry in its nearest preceding assistant message. -/
theorem sanitize_toolThread_cex :
    toolThreadOk (sanitizeMessagesForUpstream [msgAssistantAB, msgToolA]) = false := by
  decide

/-! ## Claims C3, C4: cache expiry and the error path -/

lemma handleToolsCallMiss_data (env : GatewayEnv) (oracle : String → Except String DifyOut)
    (cache : GatewayCache) (args : ToolArgs) (pk text ck mr : String) (nowW : ℚ) (nowTs : ℕ) :
    (handleToolsCallMiss env oracle cache args pk text ck mr nowW nowTs).1.data.cache_hit
        = false ∧
      (handleToolsCallMiss env oracle cache args pk text ck mr nowW nowTs).1.data.cache_miss_reason
        = mr := by
  unfold handleToolsCallMiss
  cases runRetrieval env oracle pk text with
  | error e => exact ⟨rfl, rfl⟩
  | ok r => exact ⟨rfl, rfl⟩

/-- C3 (amended): a `tools/call gateway_ctx` request whose cache entry is
older than the TTL is treated as a cache miss with
`cache_miss_reason = "expired"` and re-enters the retrieval path.  (The
stale entry is NOT evicted at read time: it is only overwritten if the
retrieval succeeds, and on a retrieval error it stays in the cache.) -/
theorem toolsCall_expired_miss (env : GatewayEnv) (oracle : String → Except String DifyOut)
    (cache : GatewayCache) (args : ToolArgs) (now nowW : ℚ) (nowTs : ℕ) (hit : CacheEntry)
    (hget : dictGet cache (toolsCallCacheKey env args) = some hit)
    (hexp : env.ttl < now - hit.stored_at) :
    handleToolsCall env oracle cache args now nowW nowTs
        = handleToolsCallMiss env oracle cache args (toolsCallPrimaryKeyword env args)
            (pyStrip args.text) (toolsCallCacheKey env args) "expired" nowW nowTs ∧
      (handleToolsCall env oracle cache args now nowW nowTs).1.data.cache_hit = false ∧
      (handleToolsCall env oracle cache args now nowW nowTs).1.data.cache_miss_reason
        = "expired" := by
  have hkey : toolsCallCacheKey env args = (toolsCallKeyAndKw env args).2.2 := rfl
  rw [hkey] at hget
  have hle : ¬ (now - hit.stored_at ≤ env.ttl) := not_le.mpr hexp
  have hmain : handleToolsCall env oracle cache args now nowW nowTs
      = handleToolsCallMiss env oracle cache args (toolsCallPrimaryKeyword env args)
          (pyStrip args.text) (toolsCallCacheKey env args) "expired" nowW nowTs := by
    unfold handleToolsCall
    simp only [hget]
    rw [if_neg hle, if_pos hexp]
    rfl
  refine ⟨hmain, ?_, ?_⟩
  · rw [hmain]
    exact (handleToolsCallMiss_data env oracle cache args _ _ _ _ nowW nowTs).1
  · rw [hmain]
    exact (handleToolsCallMiss_data env oracle cache args _ _ _ _ nowW nowTs).2

theorem toolsCall_expired_miss_witness :
    dictGet cacheW (toolsCallCacheKey envW argsW)
        = some { stored_at := 0, ctx := "old", res := resObjW } ∧
      envW.ttl < (25 : ℚ) - (0 : ℚ) ∧
      (handleToolsCall envW oracleErr cacheW argsW 25 25 1000
          = handleToolsCallMiss envW oracleErr cacheW argsW
              (toolsCallPrimaryKeyword envW argsW) (pyStrip argsW.text)
              (toolsCallCacheKey envW argsW) "expired" 25 1000 ∧
        (handleToolsCall envW oracleErr cacheW argsW 25 25 1000).1.data.cache_hit = false ∧
        (handleToolsCall envW oracleErr cacheW argsW 25 25 1000).1.data.cache_miss_reason
          = "expired") :=
  ⟨by decide, by decide,
    toolsCall_expired_miss envW oracleErr cacheW argsW 25 25 1000
      { stored_at := 0, ctx := "old", res := resObjW } (by decide) (by decide)⟩

/-- C3 counterexample: at `now = 25` against an entry stored at `0` with
TTL 20, the entry is expired; the retrieval oracle raises, and afterwards
the stale entry is still in the cache — nothing was evicted at read
time. -/
theorem toolsCall_expired_no_eviction_cex :
    (handleToolsCall envW oracleErr cacheW argsW 25 25 1000).1.data.cache_miss_reason
        = "expired" ∧
      (handleToolsCall envW oracleErr cacheW argsW 25 25 1000).2 = cacheW ∧
      dictGet cacheW "u||k||v1.0.0" ≠ none := by
  decide

lemma handleToolsCallMiss_error (env : GatewayEnv) (oracle : String → Except String DifyOut)
    (cache : GatewayCache) (args : ToolArgs) (pk text ck mr : String) (nowW : ℚ) (nowTs : ℕ)
    (e : String) (herr : runRetrieval env oracle pk text = .error e) :
    (handleToolsCallMiss env oracle cache args pk text ck mr nowW nowTs).1.isError = true ∧
      (handleToolsCallMiss env oracle cache args pk text ck mr nowW nowTs).1.text = e ∧
      (handleToolsCallMiss env oracle cache args pk text ck mr nowW nowTs).2 = cache := by
  unfold handleToolsCallMiss
  rw [herr]
  exact ⟨rfl, rfl, rfl⟩

/-- C4: if the request is not served by a fresh cache hit and the
retrieval pipeline raises, the tool result has `isError = true` with the
error text as its content text, and the cache is left unchanged — no
entry is written for the request's cache key. -/
theorem toolsCall_error_no_write (env : GatewayEnv) (oracle : String → Except String DifyOut)
    (cache : GatewayCache) (args : ToolArgs) (now nowW : ℚ) (nowTs : ℕ) (e : String)
    (hmiss : freshHitB env cache (toolsCallCacheKey env args) now = false)
    (herr : runRetrieval env oracle (toolsCallPrimaryKeyword env args) (pyStrip args.text)
      = .error e) :
    (handleToolsCall env oracle cache args now nowW nowTs).1.isError = true ∧
      (handleToolsCall env oracle cache args now nowW nowTs).1.text = e ∧
      (handleToolsCall env oracle cache args now nowW nowTs).2 = cache := by
  have hkey : toolsCallCacheKey env args = (toolsCallKeyAndKw env args).2.2 := rfl
  have hpk : toolsCallPrimaryKeyword env args = (toolsCallKeyAndKw env args).2.1 := rfl
  rw [hkey] at hmiss
  rw [hpk] at herr
  unfold freshHitB at hmiss
  unfold handleToolsCall
  cases hget : dictGet cache ((toolsCallKeyAndKw env args).2.2) with
  | none =>
    simp only [hget]
    exact handleToolsCallMiss_error env oracle cache args _ _ _ _ nowW nowTs e herr
  | some hit =>
    rw [hget] at hmiss
    have hle : ¬ (now - hit.stored_at ≤ env.ttl) := of_decide_eq_false hmiss
    simp only [hget]
    rw [if_neg hle]
    exact handleToolsCallMiss_error env oracle cache args _ _ _ _ nowW nowTs e herr

theorem toolsCall_error_no_write_witness :
    freshHitB envW ([] : GatewayCache) (toolsCallCacheKey envW argsW) 25 = false ∧
      runRetrieval envW oracleErr (toolsCallPrimaryKeyword envW argsW) (pyStrip argsW.text)
        = .error "boom" ∧
      ((handleToolsCall envW oracleErr [] argsW 25 25 1000).1.isError = true ∧
        (handleToolsCall envW oracleErr [] argsW 25 25 1000).1.text = "boom" ∧
        (handleToolsCall envW oracleErr [] argsW 25 25 1000).2 = []) :=
  ⟨rfl, rfl, toolsCall_error_no_write envW oracleErr [] argsW 25 25 1000 "boom" rfl rfl⟩

/-! ## Claim C8: notifications and the batch surface -/

lemma handleJsonrpc_fst_none (env : GatewayEnv) (oracle : String → Except String DifyOut)
    (hpv : String) (cache : GatewayCache) (m : RpcMsg) (now nowW : ℚ) (nowTs : ℕ) :
    ((handleJsonrpc env oracle hpv cache m now nowW nowTs).1 = none)
      ↔ m.idPresent = false := by
  unfold handleJsonrpc
  cases hb : m.idPresent
  · simp only [hb, Bool.false_eq_true, if_false]
    split_ifs <;> simp
  · simp only [hb, eq_self_iff_true, if_true]
    split_ifs <;> simp

lemma handleJsonrpc_fst_id (env : GatewayEnv) (oracle : String → Except String DifyOut)
    (hpv : String) (cache : GatewayCache) (m : RpcMsg) (now nowW : ℚ) (nowTs : ℕ)
    (h : m.idPresent = true) :
    ∃ r, (handleJsonrpc env oracle hpv cache m now nowW nowTs).1 = some r ∧
      rpcOutId r = m.idVal := by
  unfold handleJsonrpc
  simp only [h, eq_self_iff_true, if_true]
  split_ifs <;> exact ⟨_, rfl, rfl⟩

lemma processBatch_ids (env : GatewayEnv) (oracle : String → Except String DifyOut)
    (hpv : String) (now nowW : ℚ) (nowTs : ℕ) :
    ∀ (ms : List RpcMsg) (cache : GatewayCache),
    ((processBatch env oracle hpv now nowW nowTs ms cache).1.map rpcOutId)
      = (ms.filter (fun m => m.idPresent)).map (fun m => m.idVal) := by
  intro ms
  induction ms with
  | nil => intro cache; rfl
  | cons m rest ih =>
    intro cache
    rw [List.filter_cons]
    cases hb : m.idPresent
    · have h1 : (handleJsonrpc env oracle hpv cache m now nowW nowTs).1 = none :=
        (handleJsonrpc_fst_none env oracle hpv cache m now nowW nowTs).mpr hb
      simp only [processBatch, h1, hb, ih, cond_false, if_false, Bool.false_eq_true]
    · obtain ⟨r, hr, hid⟩ := handleJsonrpc_fst_id env oracle hpv cache m now nowW nowTs hb
      simp only [processBatch, hr, hb, if_true, cond_true, List.map_cons, ih, hid]

/-- C8 (amended): a JSON-RPC message without an `id` (a notification)
produces no response element: the dispatcher returns `None` exactly for
notifications, a POST whose body is a single notification yields HTTP 204
with no body, and in a batch the response array lists, in order, exactly
the responses for the messages that carry an `id` (each echoing that id).
A batch consisting purely of notifications therefore yields an EMPTY JSON
ARRAY — the code returns `JSONResponse(results)` for every batch and
never the claimed 204. -/
theorem jsonrpc_notifications (env : GatewayEnv) (oracle : String → Except String DifyOut)
    (hpv : String) (cache : GatewayCache) (now nowW : ℚ) (nowTs : ℕ) :
    (∀ m : RpcMsg,
      ((handleJsonrpc env oracle hpv cache m now nowW nowTs).1 = none)
        ↔ m.idPresent = false) ∧
    (∀ m : RpcMsg, m.idPresent = false →
      (gatewayCtxPost env oracle hpv cache (.single m) now nowW nowTs).1 = .noContent) ∧
    (∀ ms : List RpcMsg, (∀ m ∈ ms, m.idPresent = false) →
      (gatewayCtxPost env oracle hpv cache (.batch ms) now nowW nowTs).1
        = .many []) ∧
    (∀ ms : List RpcMsg,
      ((gatewayCtxPost env oracle hpv cache (.batch ms) now nowW nowTs).1
        = .many (processBatch env oracle hpv now nowW nowTs ms cache).1) ∧
      ((processBatch env oracle hpv now nowW nowTs ms cache).1.map rpcOutId
        = (ms.filter (fun m => m.idPresent)).map (fun m => m.idVal))) := by
  refine ⟨fun m => handleJsonrpc_fst_none env oracle hpv cache m now nowW nowTs,
    ?_, ?_, fun ms => ⟨rfl, processBatch_ids env oracle hpv now nowW nowTs ms cache⟩⟩
  · intro m hm
    have h1 : (handleJsonrpc env oracle hpv cache m now nowW nowTs).1 = none :=
      (handleJsonrpc_fst_none env oracle hpv cache m now nowW nowTs).mpr hm
    unfold gatewayCtxPost
    simp only [h1]
  · intro ms hall
    have hfil : ms.filter (fun m => m.idPresent) = [] := by
      rw [List.filter_eq_nil_iff]
      intro m hm
      simp [hall m hm]
    have hids := processBatch_ids env oracle hpv now nowW nowTs ms cache
    rw [hfil] at hids
    have hnil : (processBatch env oracle hpv now nowW nowTs ms cache).1 = [] :=
      List.map_eq_nil_iff.mp hids
    unfold gatewayCtxPost
    simp only [hnil]

theorem jsonrpc_notifications_witness :
    ((gatewayCtxPost envW oracleErr "" [] (.single notifMsgW) 25 25 1000).1 = .noContent) ∧
    ((gatewayCtxPost envW oracleErr "" [] (.batch [notifMsgW]) 25 25 1000).1 = .many []) ∧
    ((processBatch envW oracleErr "" 25 25 1000 [callMsgW, notifMsgW] []).1.map rpcOutId
      = ["7"]) :=
  ⟨(jsonrpc_notifications envW oracleErr "" [] 25 25 1000).2.1 notifMsgW rfl,
   (jsonrpc_notifications envW oracleErr "" [] 25 25 1000).2.2.1 [notifMsgW]
     (by intro m hm; rw [List.mem_singleton.mp hm]; rfl),
   by
     rw [((jsonrpc_notifications envW oracleErr "" [] 25 25 1000).2.2.2
       [callMsgW, notifMsgW]).2]
     decide⟩

/-- C8 counterexample: a batch consisting of a single notification is
answered with the JSON array `[]`, not with HTTP 204 as claimed. -/
theorem gatewayCtxPost_allNotif_cex :
    (gatewayCtxPost envW oracleErr "" [] (.batch [notifMsgW]) 25 25 1000).1 = .many [] ∧
      (gatewayCtxPost envW oracleErr "" [] (.batch [notifMsgW]) 25 25 1000).1 ≠ .noContent := by
  decide
